import Mathlib

/-!
Verification of the lz77ppm LZ77 compression library against its
natural-language specification.

The definitions below are a shallow embedding of the C sources
(`liblz77ppm/src/*.c`, `*.h`).  Machine integers are modelled as `Nat`
with explicit `% 2 ^ w` where C truncation matters; C bit operations
`x << n`, `x >> n`, `x & (2^n - 1)` are written `x * 2 ^ n`,
`x / 2 ^ n`, `x % 2 ^ n`.  Fallible C functions (returning a negative
value or NULL) become `Option` or a `Bool × state` pair.  Only the
memory-backed stream variants are embedded (`fd = -1`); the
descriptor-backed refill/flush branches are never taken for them.
-/

namespace Lz77

/-- `(uint16_t)-1`, the sentinel for an unused tree link (tree.h). -/
def UNUSED : Nat := 65535

/-- lz77.h: `#define LZ77_TYPE_BITS 1`. -/
def LZ77_TYPE_BITS : Nat := 1

/-- lz77.h: `#define LZ77_NEXT_BITS 8`. -/
def LZ77_NEXT_BITS : Nat := 8

/-- lz77.h: `#define LZ77_SYMBOL_BITS (LZ77_TYPE_BITS + LZ77_NEXT_BITS)`. -/
def LZ77_SYMBOL_BITS : Nat := 9

/-- lz77.h: `#define LZ77_MIN_WINDOW_SIZE 4`. -/
def LZ77_MIN_WINDOW_SIZE : Nat := 4

/-- lz77.h: `#define LZ77_MIN_LOOKAHEAD_SIZE 2`. -/
def LZ77_MIN_LOOKAHEAD_SIZE : Nat := 2

/-- lz77.h: `#define LZ77PPM_VERSION 0x10`. -/
def LZ77PPM_VERSION : Nat := 0x10

/-- tinyhuff.h: `#define LZ77_TINYHUFF_MIN_CODE_BITS 2`. -/
def LZ77_TINYHUFF_MIN_CODE_BITS : Nat := 2

/-- The loop of `number_of_bits` with an explicit iteration bound, so
that the recursion is structural (kernel-reducible).  `fuel ≥ value`
always suffices since the value halves each iteration. -/
def number_of_bits_go : Nat → Nat → Nat
  | _, 0 => 1
  | 0, _ => 1
  | fuel + 1, v => if v ≤ 1 then 1 else 1 + number_of_bits_go fuel (v / 2)

/-- `number_of_bits` from ustream.c / tinyhuff.c:
`r = 1; while (value >>= 1) r++; return r;`.
It returns the bit-width of `value`, except that `number_of_bits 0 = 1`. -/
def number_of_bits (value : Nat) : Nat :=
  number_of_bits_go value value

/-- The `lz77_tinyhuff` struct (tinyhuff.h): parameters of the static
length code. -/
structure lz77_tinyhuff where
  min_value : Nat
  max_value : Nat
  max_encoded_value : Nat
  diff_nbits : Nat
deriving DecidableEq

/-- `tinyhuff_init` (tinyhuff.c).  `ENCODING_TABLE_SIZE = 8`, so
`max_encoded_value = min_value + 6`.  `max_diff` is a signed int in C;
`diff_nbits = number_of_bits(max_diff)` exactly when `max_diff >= 0`. -/
def tinyhuff_init (min_value max_value : Nat) : lz77_tinyhuff :=
  { min_value := min_value
    max_value := max_value
    max_encoded_value := min_value + 6
    diff_nbits :=
      if min_value + 6 ≤ max_value then number_of_bits (max_value - (min_value + 6)) else 0 }

/-- `encoding_table` (tinyhuff.c), as a function from the index to
`(code, nbits)`.  Indices beyond 7 never occur (the encoder clamps). -/
def encoding_table : Nat → Nat × Nat
  | 0 => (0, 6)
  | 1 => (3, 2)
  | 2 => (2, 2)
  | 3 => (1, 2)
  | 4 => (1, 3)
  | 5 => (1, 4)
  | 6 => (1, 5)
  | _ => (1, 6)

/-- `decoding_table` (tinyhuff.c): the 64-entry direct-mapped table on the
top 6 peeked bits, as a function from the index to `(value, nbits)`.
The if-chain reproduces the literal table rows 0, 1, 2–3, 4–7, 8–15,
16–31, 32–47, 48–63. -/
def decoding_table (i : Nat) : Nat × Nat :=
  if i = 0 then (0, 6)
  else if i = 1 then (6, 6)
  else if i < 4 then (5, 5)
  else if i < 8 then (4, 4)
  else if i < 16 then (3, 3)
  else if i < 32 then (2, 2)
  else if i < 48 then (1, 2)
  else (0, 2)

/-- `tinyhuff_encode` (tinyhuff.c).  Returns `(nbits, code)` where the C
function returns `nbits` and stores the right-aligned code through the
`code` out-parameter (a `uint16_t`, hence the `% 65536` truncation; the
C expression `(*code << diff_nbits) | diff_code` is evaluated as an
`int` and truncated on assignment).  `|` is `+` here because the code's
low `diff_nbits` bits are zero before the or. -/
def tinyhuff_encode (enc : lz77_tinyhuff) (value : Nat) : Nat × Nat :=
  let index := if value = 0 then 0 else min (1 + value - enc.min_value) 7
  let code := (encoding_table index).1
  let nbits := (encoding_table index).2
  if enc.max_encoded_value ≤ value then
    let diff_code := value - enc.max_encoded_value
    (nbits + enc.diff_nbits, (code * 2 ^ enc.diff_nbits + diff_code) % 65536)
  else
    (nbits, code)

/-- `tinyhuff_can_encode` (tinyhuff.c). -/
def tinyhuff_can_encode (enc : lz77_tinyhuff) (value : Nat) : Bool :=
  value = 0 || (enc.min_value ≤ value && value ≤ enc.max_value)

/-- `tinyhuff_decode` (tinyhuff.c).  `peeked` is the 16-bit word holding
the peeked bits left-aligned (the caller byte-swaps with `htons`), and
`peeked_length` is how many of its top bits are valid.  Returns
`(to_consume, value)`; `to_consume = 0` signals "need more bits" (the C
function returns 0 and the partially-written `*value` is ignored by its
caller).  `index = (peeked >> 10) & 63` and the diff extraction
`(peeked >> (10 - diff_nbits)) & (2^diff_nbits - 1)` are written with
`/`, `%`.  The underflowing branch `10 - diff_nbits` with
`diff_nbits > 10` is unreachable: it requires `peeked_length ≥ 16 + ...`
while callers pass at most 16. -/
def tinyhuff_decode (enc : lz77_tinyhuff) (peeked peeked_length : Nat) : Nat × Nat :=
  if peeked_length < LZ77_TINYHUFF_MIN_CODE_BITS then (0, 0)
  else
    let index := peeked / 2 ^ 10 % 64
    let value0 := (decoding_table index).1
    let to_consume := (decoding_table index).2
    if peeked_length < to_consume then (0, value0)
    else
      let value1 := if 0 < index then value0 + enc.min_value else value0
      if value1 = enc.max_encoded_value then
        if peeked_length < to_consume + enc.diff_nbits then (0, value1)
        else
          let tpos := 10 - enc.diff_nbits
          let diff := peeked / 2 ^ tpos % 2 ^ enc.diff_nbits
          (to_consume + enc.diff_nbits, value1 + diff)
      else
        (to_consume, value1)

/-- `window_nbits`, as computed by `lz77_ustream_from_memory` /
`lz77_ustream_from_descriptor` / `ustream_open`:
`number_of_bits(window_size - 1)`. -/
def ustream_window_nbits (window_maxsize : Nat) : Nat :=
  number_of_bits (window_maxsize - 1)

/-- The minimum match length computed in `ustream_open`:
`(LZ77_TYPE_BITS + window_nbits + LZ77_TINYHUFF_MIN_CODE_BITS) / LZ77_SYMBOL_BITS + 1`. -/
def ustream_min_match_length (window_maxsize : Nat) : Nat :=
  (LZ77_TYPE_BITS + ustream_window_nbits window_maxsize + LZ77_TINYHUFF_MIN_CODE_BITS)
    / LZ77_SYMBOL_BITS + 1

/-- The length encoder installed by `ustream_open` for parameters
`(W, L)`: `tinyhuff_init(min_match_length, lookahead_maxsize)`. -/
def ustream_length_encoder (window_maxsize lookahead_maxsize : Nat) : lz77_tinyhuff :=
  tinyhuff_init (ustream_min_match_length window_maxsize) lookahead_maxsize

/-- The caller-side left alignment of a right-aligned `nbits`-bit code in
a 16-bit word (the decompressor peeks into a zero-initialised `uint16_t`
and byte-swaps, so the code sits in the topmost bits and the rest is 0). -/
def left_align16 (code nbits : Nat) : Nat :=
  code * 2 ^ (16 - nbits) % 65536

/-- The `lz77_tree` slot record (tree.h): `parent`, `smaller`, `larger`
are `uint16_t` indices into the slot arena, `UNUSED = 0xFFFF`. -/
structure lz77_tree_node where
  parent : Nat
  smaller : Nat
  larger : Nat
deriving DecidableEq

/-- The all-unused node.  Freshly `malloc`ed slots are uninitialised in
C; the model uses this value, which is never read before the slot is
initialised in any execution the theorems below evaluate. -/
def unused_node : lz77_tree_node := ⟨UNUSED, UNUSED, UNUSED⟩

/-- The slot arena (the C array of `window_maxsize + 1` records; index
`window_maxsize` is the sentinel root), modelled as an overlay list of
`(index, record)` updates over an all-`unused_node` background: a store
is read by the first matching entry.  This is observationally the C
array (a total map from indices to records) while keeping stores O(1). -/
abbrev lz77_tree_arena : Type := List (Nat × lz77_tree_node)

/-- Read slot `i` of the arena. -/
def tree_get (t : lz77_tree_arena) (i : Nat) : lz77_tree_node :=
  match t with
  | [] => unused_node
  | (j, v) :: rest => if i = j then v else tree_get rest i

/-- Write slot `i` of the arena. -/
def tree_set (t : lz77_tree_arena) (i : Nat) (v : lz77_tree_node) : lz77_tree_arena :=
  (i, v) :: t

/-- `lz77_tree_contract_node` (tree.c): splice out `old` (which has at
most one child) replacing it by `new_` under `old`'s parent.  The
updates are performed in source order. -/
def lz77_tree_contract_node (tree : lz77_tree_arena) (old new_ : Nat) : lz77_tree_arena :=
  let parent := (tree_get tree old).parent
  let t1 :=
    if new_ ≠ UNUSED then tree_set tree new_ { (tree_get tree new_) with parent := parent }
    else tree
  let t2 :=
    if (tree_get t1 parent).larger = old then
      tree_set t1 parent { (tree_get t1 parent) with larger := new_ }
    else
      tree_set t1 parent { (tree_get t1 parent) with smaller := new_ }
  tree_set t2 old { (tree_get t2 old) with parent := UNUSED }

/-- `lz77_tree_replace_node` (tree.c): `new_` takes over `old`'s place in
the tree (same parent, same children); `old` is detached.  Updates in
source order. -/
def lz77_tree_replace_node (tree : lz77_tree_arena) (old new_ : Nat) : lz77_tree_arena :=
  let parent := (tree_get tree old).parent
  let t1 :=
    if parent = UNUSED then tree
    else if (tree_get tree parent).smaller = old then
      tree_set tree parent { (tree_get tree parent) with smaller := new_ }
    else
      tree_set tree parent { (tree_get tree parent) with larger := new_ }
  let t2 := tree_set t1 new_ (tree_get t1 old)
  let t3 :=
    if (tree_get t2 new_).smaller ≠ UNUSED then
      tree_set t2 ((tree_get t2 new_).smaller)
        { (tree_get t2 ((tree_get t2 new_).smaller)) with parent := new_ }
    else t2
  let t4 :=
    if (tree_get t3 new_).larger ≠ UNUSED then
      tree_set t3 ((tree_get t3 new_).larger)
        { (tree_get t3 ((tree_get t3 new_).larger)) with parent := new_ }
    else t3
  tree_set t4 old { (tree_get t4 old) with parent := UNUSED }

/-- The loop of `lz77_tree_find_next_node` (tree.c): follow `larger`
links to the in-order predecessor.  The fuel bound only guards against
cyclic (corrupted) arenas; sane walks are short. -/
def tree_find_next_go (tree : lz77_tree_arena) : Nat → Nat → Nat
  | 0, next => next
  | fuel + 1, next =>
    if (tree_get tree next).larger = UNUSED then next
    else tree_find_next_go tree fuel ((tree_get tree next).larger)

/-- `lz77_tree_find_next_node` (tree.c): rightmost descendant of the
`smaller` subtree.  Only called when `smaller ≠ UNUSED`. -/
def lz77_tree_find_next_node (tree : lz77_tree_arena) (index : Nat) : Nat :=
  tree_find_next_go tree 65536 ((tree_get tree index).smaller)

/-- `lz77_tree_delete_node` (tree.c), with explicit recursion depth.  In
the two-children case the replacement is the in-order next node, which
has no `larger` child, so its recursive deletion takes a contract
branch: depth 2 always suffices (the entry point below passes 2). -/
def tree_delete_go : Nat → lz77_tree_arena → Nat → lz77_tree_arena
  | 0, tree, _ => tree
  | fuel + 1, tree, index =>
    if (tree_get tree index).parent = UNUSED then tree
    else if (tree_get tree index).smaller ≠ UNUSED ∧ (tree_get tree index).larger ≠ UNUSED then
      let repl := lz77_tree_find_next_node tree index
      let tree1 := tree_delete_go fuel tree repl
      lz77_tree_replace_node tree1 index repl
    else if (tree_get tree index).smaller ≠ UNUSED then
      lz77_tree_contract_node tree index ((tree_get tree index).smaller)
    else
      lz77_tree_contract_node tree index ((tree_get tree index).larger)

/-- `lz77_tree_delete_node` (tree.c). -/
def lz77_tree_delete_node (tree : lz77_tree_arena) (index : Nat) : lz77_tree_arena :=
  tree_delete_go 2 tree index

/-- The byte-comparison loop inside `lz77_find_and_add` (tree.c):
compare the look-ahead string at `la` with the window string at `wi`
for up to `n` (= `lookahead_currsize`) bytes.  Returns the common
prefix length `i` and `delta`, the `int` difference
`lookahead[i] - window[k+i]` at the first mismatch (0 on a full match,
matching the C variable's initialisation). -/
def match_compare (cdata : List Nat) (la wi : Nat) : Nat → Nat × Int
  | 0 => (0, 0)
  | n + 1 =>
    let d : Int := (cdata.getD la 0 : Int) - (cdata.getD wi 0 : Int)
    if d = 0 then
      let r := match_compare cdata (la + 1) (wi + 1) n
      (r.1 + 1, r.2)
    else (0, d)

/-- The window offset of slot `test`: `k = test - begin`, `+ W` if
negative (`lz77_find_and_add`, tree.c). -/
def slot_window_offset (W begin_ test : Nat) : Nat :=
  if test < begin_ then test + W - begin_ else test - begin_

/-- The search/insert loop of `lz77_find_and_add` (tree.c).  Parameters
fixed over the walk: `cdata` (backing bytes), `W = window_maxsize`,
`lsize = lookahead_currsize`, `la` (look-ahead index), `win` (window
start index), `begin_ = win % W`, `curr` (slot being inserted).  The
walk state is `(tree, test, longest, offset)`.  The fuel only guards
against cyclic (corrupted) arenas; the result on exhaustion is
irrelevant to every theorem below. -/
def find_and_add_go (cdata : List Nat) (W lsize la win begin_ curr : Nat) :
    Nat → lz77_tree_arena → Nat → Nat → Nat →
    lz77_tree_arena × Nat × Nat
  | 0, tree, _, longest, offset => (tree, longest, offset)
  | fuel + 1, tree, test, longest, offset =>
    let k := slot_window_offset W begin_ test
    let m := match_compare cdata la (win + k) lsize
    let i := m.1
    let delta := m.2
    let longest1 := if longest < i then i else longest
    let offset1 := if longest < i then k else offset
    if longest < i ∧ i = lsize then
      -- Full look-ahead match: duplicated nodes are not permitted, so
      -- the old node `test` is replaced by the new one `curr`.
      if test ≠ curr then
        (lz77_tree_replace_node (lz77_tree_delete_node tree curr) test curr, longest1, offset1)
      else (tree, longest1, offset1)
    else
      let child :=
        if 0 < delta then (tree_get tree test).larger else (tree_get tree test).smaller
      if child = UNUSED then
        if test = curr then (tree, longest1, offset1)
        else
          let tree1 :=
            if (tree_get tree curr).parent ≠ UNUSED then lz77_tree_delete_node tree curr
            else tree
          let child1 :=
            if 0 < delta then (tree_get tree1 test).larger else (tree_get tree1 test).smaller
          if child1 = UNUSED then
            -- Attach curr as that child of test.
            let tree2 :=
              if 0 < delta then
                tree_set tree1 test { (tree_get tree1 test) with larger := curr }
              else
                tree_set tree1 test { (tree_get tree1 test) with smaller := curr }
            let tree3 := tree_set tree2 curr ⟨test, UNUSED, UNUSED⟩
            (tree3, longest1, offset1)
          else
            find_and_add_go cdata W lsize la win begin_ curr fuel tree1 child1 longest1 offset1
      else
        find_and_add_go cdata W lsize la win begin_ curr fuel tree child longest1 offset1

/-- The `lz77_ustream` struct (ustream_internal.h) in compression-input
mode, memory backed (`fd = -1`).  Pointers into the buffer (`window`,
`lookahead`) become indices into `cdata`; for a memory input `size` and
`end` both equal `cdata.length`, so they are not duplicated as fields. -/
structure lz77_ustream_c where
  cdata : List Nat
  window : Nat
  window_maxsize : Nat
  window_currsize : Nat
  window_nbits : Nat
  lookahead : Nat
  lookahead_maxsize : Nat
  lookahead_currsize : Nat
  tree : lz77_tree_arena
  length_encoder : lz77_tinyhuff
  processed_bytes : Nat
deriving DecidableEq

/-- `lz77_find_and_add` (tree.c): walk from the real root
(`tree[window_maxsize].larger`), return the updated arena and
`(longest, offset)` of the best match.  The fuel `window_maxsize + 1`
bounds any sane walk (the arena has `window_maxsize + 1` slots). -/
def lz77_find_and_add (u : lz77_ustream_c) (curr : Nat) :
    lz77_tree_arena × Nat × Nat :=
  let begin_ := u.window % u.window_maxsize
  find_and_add_go u.cdata u.window_maxsize u.lookahead_currsize u.lookahead u.window begin_
    curr (u.window_maxsize + 1) u.tree ((tree_get u.tree u.window_maxsize).larger) 0 0

/-- The tree state right after the first-call seeding block of
`ustream_find_and_advance` (ustream.c): slot 0 becomes the right child
of the sentinel root `W` (whose other links were set to `UNUSED` by
`lz77_tree_init` in `ustream_open`); every other slot is cleared. -/
def tree_seed (W : Nat) : lz77_tree_arena :=
  [(W, ⟨UNUSED, UNUSED, 0⟩), (0, ⟨W, UNUSED, UNUSED⟩)]

/-- One iteration of the advance loop in `ustream_find_and_advance`
(ustream.c), memory-backed input (`fd < 0`, so the compaction/refill
branch is never taken and any look-ahead overrun just shrinks
`lookahead_currsize`).  `not_last` is `i < count - 1`. -/
def ustream_advance_once (u : lz77_ustream_c) (not_last : Bool) : lz77_ustream_c :=
  -- Delete the slot for lookahead+1 (computed before the shift).
  let t1 :=
    if not_last then lz77_tree_delete_node u.tree ((u.lookahead + 1) % u.window_maxsize)
    else u.tree
  -- Update the sliding window, growing it up to the maximum and then shifting.
  let win := if u.window_currsize = u.window_maxsize then u.window + 1 else u.window
  let wsz := if u.window_currsize = u.window_maxsize then u.window_currsize
             else u.window_currsize + 1
  -- Shift the look-ahead buffer.
  let la := u.lookahead + 1
  -- If it passed the end of valid data (end = cdata.length for a memory
  -- stream), reduce its current size.
  let lsz := if u.cdata.length < la + u.lookahead_currsize then u.lookahead_currsize - 1
             else u.lookahead_currsize
  let u1 := { u with tree := t1, window := win, window_currsize := wsz,
                     lookahead := la, lookahead_currsize := lsz }
  if not_last then
    let r := lz77_find_and_add u1 (u1.lookahead % u1.window_maxsize)
    { u1 with tree := r.1 }
  else u1

/-- The advance loop of `ustream_find_and_advance`, `rem` iterations
remaining (started with `rem = count`); the last iteration skips the
delete and the re-insert. -/
def ustream_advance_loop : Nat → lz77_ustream_c → lz77_ustream_c
  | 0, u => u
  | rem + 1, u => ustream_advance_loop rem (ustream_advance_once u (decide (0 < rem)))

/-- `ustream_find_and_advance` (ustream.c), memory-backed.  Returns
`(count, offset, length, next, u')`; `count = 0` means EOF.  The C
function writes `offset`, `length`, `next` through out-parameters that
stay untouched on paths that do not set them (the caller only reads the
ones that are set); the model returns 0 there. -/
def ustream_find_and_advance (u0 : lz77_ustream_c) :
    Nat × Nat × Nat × Nat × lz77_ustream_c :=
  if u0.lookahead_currsize = 0 then (0, 0, 0, 0, u0)
  else
    let step1 : lz77_ustream_c × Nat × Nat :=
      if u0.window_currsize = 0 then
        ({ u0 with tree := tree_seed u0.window_maxsize }, 0, 0)
      else
        let r := lz77_find_and_add u0 (u0.lookahead % u0.window_maxsize)
        ({ u0 with tree := r.1 }, r.2.1, r.2.2)
    let u := step1.1
    let length := step1.2.1
    let offset := step1.2.2
    let ce := tinyhuff_can_encode u.length_encoder length
    let cnl : Nat × Nat × Nat × Nat :=
      if length = 0 ∨ ce = false then (1, 0, 0, u.cdata.getD u.lookahead 0)
      else (length, offset, length, 0)
    let u2 := ustream_advance_loop cnl.1 u
    (cnl.1, cnl.2.1, cnl.2.2.1, cnl.2.2.2,
      { u2 with processed_bytes := u2.processed_bytes + cnl.1 })

/-- `lz77_ustream_from_memory` (ustream.c), compression input.
`data_is_null` models passing a NULL data pointer; `none` models the
NULL return with `errno = EINVAL` (allocation is assumed to succeed,
and an allocation failure returns NULL without setting `EINVAL`).
The `length_encoder` is `calloc`ed to zero and only filled in by
`ustream_open`; the tree is `malloc`ed (uninitialised). -/
def lz77_ustream_from_memory (data_is_null : Bool) (s : List Nat)
    (window_size lookahead_size : Nat) : Option lz77_ustream_c :=
  if data_is_null then none
  else if window_size < LZ77_MIN_WINDOW_SIZE then none
  else if lookahead_size < LZ77_MIN_LOOKAHEAD_SIZE then none
  else
    some
      { cdata := s
        window := 0
        window_maxsize := window_size
        window_currsize := 0
        window_nbits := number_of_bits (window_size - 1)
        lookahead := 0
        lookahead_maxsize := lookahead_size
        lookahead_currsize := 0
        tree := []
        length_encoder := ⟨0, 0, 0, 0⟩
        processed_bytes := 0 }

/-- The argument validation of `lz77_ustream_from_descriptor`
(ustream.c).  Only the checks are modelled (the descriptor-backed
buffer contents are outside this embedding); `none` models the NULL
return with `errno = EINVAL`. -/
def lz77_ustream_from_descriptor_checks (fd : Int) (window_size lookahead_size : Nat) :
    Option Unit :=
  if fd < 0 then none
  else if window_size < LZ77_MIN_WINDOW_SIZE then none
  else if lookahead_size < LZ77_MIN_LOOKAHEAD_SIZE then none
  else some ()

/-- `ustream_open` (ustream.c) on a memory-backed compression input:
fill the look-ahead (clip to `lookahead_maxsize`), run `lz77_tree_init`
(set the sentinel root's links to `UNUSED`), and initialise the length
encoder from `min_match_length` and `lookahead_maxsize`. -/
def ustream_open_c (u : lz77_ustream_c) : lz77_ustream_c :=
  let lsz := min u.cdata.length u.lookahead_maxsize
  let min_match_length :=
    (LZ77_TYPE_BITS + u.window_nbits + LZ77_TINYHUFF_MIN_CODE_BITS) / LZ77_SYMBOL_BITS + 1
  { u with
    lookahead_currsize := lsz
    tree := tree_set u.tree u.window_maxsize unused_node
    length_encoder := tinyhuff_init min_match_length u.lookahead_maxsize }

/-- The `lz77_cstream` struct (cstream_internal.h) in writer mode,
memory backed (`fd = -1`).  `data` holds the bytes written so far (the
C buffer's valid prefix, `end_bits / 8` bytes); `size` is the buffer
capacity in bytes. -/
structure lz77_cstream_w where
  data : List Nat
  size : Nat
  end_bits : Nat
  cached : Nat
  cached_nbits : Nat
  can_realloc : Bool
  window_maxsize : Nat
  lookahead_maxsize : Nat
  processed_bits : Nat
deriving DecidableEq

/-- `lz77_cstream_get_processed_bits` (cstream.c):
`processed_bits + cached_nbits`. -/
def lz77_cstream_get_processed_bits (w : lz77_cstream_w) : Nat :=
  w.processed_bits + w.cached_nbits

/-- The 8 bytes of a `uint64_t` in big-endian order (`htobe64`). -/
def be64_bytes (x : Nat) : List Nat :=
  [x / 2 ^ 56 % 256, x / 2 ^ 48 % 256, x / 2 ^ 40 % 256, x / 2 ^ 32 % 256,
   x / 2 ^ 24 % 256, x / 2 ^ 16 % 256, x / 2 ^ 8 % 256, x % 256]

/-- `cstream_write` (cstream.c), memory-backed writer.  On capacity
overflow with `can_realloc == 0` it fails (`errno = ENOMEM`, state
untouched); with `can_realloc` it grows the buffer
(`max(end/8 + nbytes, 1024, size * 1.1)`; the C growth factor is the
floating-point `1.1`, approximated here by `size * 11 / 10` — no
theorem depends on the grown capacity) and then appends.  Returns
`(ok, state)`. -/
def cstream_write (w : lz77_cstream_w) (bytes : List Nat) : Bool × lz77_cstream_w :=
  if w.size < w.end_bits / 8 + bytes.length then
    if w.can_realloc = false then (false, w)
    else
      let new_size := max (max (w.end_bits / 8 + bytes.length) 1024) (w.size * 11 / 10)
      (true, { w with size := new_size, data := w.data ++ bytes,
                      end_bits := w.end_bits + bytes.length * 8,
                      processed_bits := w.processed_bits + bytes.length * 8 })
  else
    (true, { w with data := w.data ++ bytes,
                    end_bits := w.end_bits + bytes.length * 8,
                    processed_bits := w.processed_bits + bytes.length * 8 })

/-- `cstream_write_bits` (cstream.c).  If the 64-bit cache would
overflow, its whole bytes are flushed big-endian through
`cstream_write` (on a flush failure the C code nevertheless proceeds to
update the cache and returns the failure).  The field extraction
`(*reg >> (64 - startbit - nbits)) & ((1 << nbits) - 1)` is modelled
with the mathematical mask `2 ^ nbits - 1` (the C `int` shift is
undefined for `nbits ≥ 32`; callers in this embedding keep
`nbits ≤ 39`, and no theorem below depends on the masked value for
`nbits ≥ 32`).  Subtractions are `Nat` (callers keep them
non-negative, matching the C asserts). -/
def cstream_write_bits (w0 : lz77_cstream_w) (reg startbit nbits : Nat) :
    Bool × lz77_cstream_w :=
  let flushed : Bool × lz77_cstream_w :=
    if 64 < w0.cached_nbits + nbits then
      let count := w0.cached_nbits / 8
      let r := cstream_write w0 ((be64_bytes w0.cached).take count)
      (r.1, { r.2 with cached := r.2.cached * 2 ^ (count * 8) % 2 ^ 64,
                       cached_nbits := r.2.cached_nbits % 8 })
    else (true, w0)
  let ok := flushed.1
  let w := flushed.2
  let value := reg / 2 ^ (64 - startbit - nbits) % 2 ^ nbits
  let value := value * 2 ^ (64 - nbits - w.cached_nbits) % 2 ^ 64
  (ok, { w with cached := w.cached + value, cached_nbits := w.cached_nbits + nbits })

/-- `cstream_close` (cstream.c), memory-backed writer: flush the
`(cached_nbits + 7) / 8` pending cache bytes (zero-padded tail).  The C
return value of the inner `cstream_write` is discarded by
`cstream_close` itself. -/
def cstream_close_w (w : lz77_cstream_w) : lz77_cstream_w :=
  if 0 < w.cached_nbits then
    let nbytes := (w.cached_nbits + 7) / 8
    let r := cstream_write w ((be64_bytes w.cached).take nbytes)
    { r.2 with cached_nbits := 0 }
  else w

/-- The 12 header bytes built by the writer side of `cstream_open`
(cstream.c, `cstream_header` in cstream_internal.h): magic `"LZ77"`,
version `0x10`, three reserved zero bytes, then `window_size` and
`lookahead_size` as big-endian `uint16_t` (`htons`). -/
def cstream_header_bytes (W L : Nat) : List Nat :=
  [76, 90, 55, 55, LZ77PPM_VERSION, 0, 0, 0,
   W / 256 % 256, W % 256, L / 256 % 256, L % 256]

/-- Writer side of `cstream_open` (cstream.c): emit the header through
`cstream_write`. -/
def cstream_open_w (w : lz77_cstream_w) : Bool × lz77_cstream_w :=
  cstream_write w (cstream_header_bytes w.window_maxsize w.lookahead_maxsize)

/-- `lz77_cstream_to_memory(from, NULL, 0, 1)` (cstream.c): a growable
memory-backed compression output, parameters copied from the paired
input UStream. -/
def lz77_cstream_to_memory_growable (window_maxsize lookahead_maxsize : Nat) :
    lz77_cstream_w :=
  { data := [], size := 0, end_bits := 0, cached := 0, cached_nbits := 0,
    can_realloc := true, window_maxsize := window_maxsize,
    lookahead_maxsize := lookahead_maxsize, processed_bits := 0 }

/-- The token loop of `lz77_compress` (lz77.c): call
`ustream_find_and_advance` until EOF, encoding each token with
`cstream_write_bits`; then encode the terminating token, close the
compressed stream (`ustream_close` is a no-op for a memory input), and
return `(processed_bits + 7) / 8` together with the output bytes.
`none` models the `-1` error return (or fuel exhaustion, which cannot
happen with the fuel passed by `lz77_compress_memory`). -/
def lz77_compress_go (winoff_bits : Nat) (enc : lz77_tinyhuff) :
    Nat → lz77_ustream_c → lz77_cstream_w → Option (Nat × List Nat)
  | 0, _, _ => none
  | fuel + 1, u, cs =>
    let r := ustream_find_and_advance u
    let count := r.1
    let offset := r.2.1
    let length := r.2.2.1
    let next := r.2.2.2.1
    let u' := r.2.2.2.2
    if count = 0 then
      -- Encode the terminating token.
      let e := tinyhuff_encode enc 0
      let token := (1 * 2 ^ winoff_bits) * 2 ^ e.1 + e.2
      let tbits := LZ77_TYPE_BITS + winoff_bits + e.1
      let wr := cstream_write_bits cs token (64 - tbits) tbits
      if wr.1 then
        let cs' := cstream_close_w wr.2
        some ((lz77_cstream_get_processed_bits cs' + 7) / 8, cs'.data)
      else none
    else
      let te : Nat × Nat :=
        if length ≠ 0 then
          -- Phrase token: 1, offset(winoff_bits), length code.
          let e := tinyhuff_encode enc length
          ((1 * 2 ^ winoff_bits + offset) * 2 ^ e.1 + e.2,
            LZ77_TYPE_BITS + winoff_bits + e.1)
        else
          -- Symbol token: 0, byte(8).
          (next, LZ77_SYMBOL_BITS)
      let wr := cstream_write_bits cs te.1 (64 - te.2) te.2
      if wr.1 then lz77_compress_go winoff_bits enc fuel u' wr.2 else none

/-- `lz77_compress` (lz77.c) over a memory input and a growable memory
output: create both streams
(`lz77_ustream_from_memory` / `lz77_cstream_to_memory(·, NULL, 0, 1)`),
open them, and run the token loop.  Each loop iteration consumes at
least one input byte, so `s.length + 2` fuel is never exhausted. -/
def lz77_compress_memory (s : List Nat) (window_size lookahead_size : Nat) :
    Option (Nat × List Nat) :=
  match lz77_ustream_from_memory false s window_size lookahead_size with
  | none => none
  | some u0 =>
    let u := ustream_open_c u0
    let cs0 := lz77_cstream_to_memory_growable u.window_maxsize u.lookahead_maxsize
    let op := cstream_open_w cs0
    if op.1 then
      lz77_compress_go u.window_nbits u.length_encoder (s.length + 2) u op.2
    else none

/-- `bit_get` (bit.c): bit `pos` of the byte buffer, MSB-first within
each byte. -/
def bit_get (bytes : List Nat) (pos : Nat) : Nat :=
  bytes.getD (pos / 8) 0 / 2 ^ (7 - pos % 8) % 2

/-- The value of the `n` bits starting at bit `pos`, read MSB-first (the
integer a big-endian read of those bits produces). -/
def stream_bits_val (bytes : List Nat) (pos : Nat) : Nat → Nat
  | 0 => 0
  | n + 1 => stream_bits_val bytes pos n * 2 + bit_get bytes (pos + n)

/-- The `lz77_cstream` struct in reader mode, memory backed
(`lz77_cstream_from_memory`, cstream.c): `pos` is the next bit to read,
`end_bits = size * 8` the number of valid bits.  Reads never refill
(`fd < 0`). -/
structure lz77_cstream_r where
  cdata : List Nat
  pos : Nat
  end_bits : Nat
  processed_bits : Nat
  window_maxsize : Nat
  lookahead_maxsize : Nat
deriving DecidableEq

/-- `lz77_cstream_from_memory` (cstream.c). -/
def lz77_cstream_from_memory (bytes : List Nat) : lz77_cstream_r :=
  { cdata := bytes, pos := 0, end_bits := bytes.length * 8, processed_bits := 0,
    window_maxsize := 0, lookahead_maxsize := 0 }

/-- `cstream_peek` (cstream.c) on a memory stream: copy
`min nbits (end - pos)` bits without consuming.  The C function ORs the
bits into a zero-initialised buffer at `startbit`; at the value level
this puts the peeked bits top-aligned, which is what the model's
callers reconstruct from the returned count. -/
def cstream_peek_r (cs : lz77_cstream_r) (nbits : Nat) : Nat × Nat :=
  let m := min nbits (cs.end_bits - cs.pos)
  (m, stream_bits_val cs.cdata cs.pos m)

/-- `cstream_consume` (cstream.c): advance `pos` by at most the
available bits and count them in `processed_bits`. -/
def cstream_consume (cs : lz77_cstream_r) (nbits : Nat) : lz77_cstream_r :=
  let n := min nbits (cs.end_bits - cs.pos)
  { cs with pos := cs.pos + n, processed_bits := cs.processed_bits + n }

/-- `cstream_read` (cstream.c) on a memory stream: peek (a second peek
returns the same bits, so the C retry loop terminates immediately) and
consume.  Returns the number of bits read and their value. -/
def cstream_read_r (cs : lz77_cstream_r) (nbits : Nat) : Nat × Nat × lz77_cstream_r :=
  let p := cstream_peek_r cs nbits
  (p.1, p.2, cstream_consume cs p.1)

/-- Reader side of `cstream_open` (cstream.c): read the 96 header bits
(the stream starts byte-aligned, so this is the first 12 bytes laid
over the `cstream_header` struct), validate them, and store the decoded
`ntohs` parameters.  `none` models the `-1` return. -/
def cstream_open_r (cs0 : lz77_cstream_r) : Option lz77_cstream_r :=
  let r := cstream_read_r cs0 96
  if r.1 ≠ 96 then none
  else
    let b := fun i => cs0.cdata.getD i 0
    if b 0 = 76 ∧ b 1 = 90 ∧ b 2 = 55 ∧ b 3 = 55 then
      if b 4 = LZ77PPM_VERSION then
        let W := b 8 * 256 + b 9
        let L := b 10 * 256 + b 11
        if W < LZ77_MIN_WINDOW_SIZE then none
        else if L < LZ77_MIN_LOOKAHEAD_SIZE then none
        else if L > W then none
        else some { r.2.2 with window_maxsize := W, lookahead_maxsize := L }
      else none
    else none

/-- The `lz77_ustream` struct in decompression-output mode, memory
backed (`lz77_ustream_to_memory`, ustream.c).  `data` holds the valid
output bytes (`end` many, so `end = data.length` is not duplicated);
`size` is the buffer capacity; `window` is the index of the window
start, with the invariant `window + window_currsize = end` maintained
by `ustream_save`. -/
structure lz77_ustream_w where
  data : List Nat
  size : Nat
  can_realloc : Bool
  window : Nat
  window_maxsize : Nat
  window_currsize : Nat
  window_nbits : Nat
  lookahead_maxsize : Nat
  length_encoder : lz77_tinyhuff
  processed_bytes : Nat
deriving DecidableEq

/-- `lz77_ustream_to_memory(from, NULL, 0, 1)` (ustream.c): growable
memory output; the window/look-ahead parameters are filled in by
`ustream_open` from the paired compressed stream. -/
def lz77_ustream_to_memory_growable : lz77_ustream_w :=
  { data := [], size := 0, can_realloc := true, window := 0, window_maxsize := 0,
    window_currsize := 0, window_nbits := 0, lookahead_maxsize := 0,
    length_encoder := ⟨0, 0, 0, 0⟩, processed_bytes := 0 }

/-- `ustream_open` (ustream.c) on a memory-backed decompression output:
copy the parameters from the paired compressed stream and initialise
the length encoder exactly as on the compression side. -/
def ustream_open_w (u : lz77_ustream_w) (from_w from_l : Nat) : lz77_ustream_w :=
  let wnb := number_of_bits (from_w - 1)
  let min_match_length :=
    (LZ77_TYPE_BITS + wnb + LZ77_TINYHUFF_MIN_CODE_BITS) / LZ77_SYMBOL_BITS + 1
  { u with window_maxsize := from_w, window_nbits := wnb, lookahead_maxsize := from_l,
           length_encoder := tinyhuff_init min_match_length from_l }

/-- The byte-by-byte overlapping copy of `ustream_save` (ustream.c):
`n` times append `data[src]` and advance `src`, so later iterations can
read bytes written by earlier ones.  Out-of-range reads (possible only
for tokens the C code merely `assert`s against) give 0, standing for an
indeterminate heap byte; no theorem below depends on such a byte's
value. -/
def overlap_copy (data : List Nat) (src : Nat) : Nat → List Nat
  | 0 => data
  | n + 1 => overlap_copy (data ++ [data.getD src 0]) (src + 1) n

/-- `ustream_save` (ustream.c), memory backed.  Grows the buffer when
needed (`can_realloc = false` fails with `ENOMEM`, modelled as `none`);
writes the symbol byte, or copies the phrase with `memcpy` when source
and destination do not overlap (`window + offset + length <= end`) and
byte-by-byte otherwise; then slides the window and counts the bytes. -/
def ustream_save (u : lz77_ustream_w) (offset length next : Nat) :
    Option lz77_ustream_w :=
  let count := if length = 0 then 1 else length
  let end0 := u.data.length
  -- Grow the data buffer if the phrase does not fit.
  let grown : Option lz77_ustream_w :=
    if u.size < end0 + count then
      if u.can_realloc = false then none
      else
        let new_size := max (max (end0 + count) 1024) (u.size * 11 / 10)
        some { u with size := new_size }
    else some u
  match grown with
  | none => none
  | some u1 =>
    -- Write the phrase or the unmatched symbol.
    let data1 :=
      if length = 0 then u1.data ++ [next]
      else if u1.window + offset + length ≤ end0 then
        u1.data ++ ((u1.data.drop (u1.window + offset)).take length)
      else
        overlap_copy u1.data (u1.window + offset) length
    let len := if length = 0 then 1 else length
    -- Slide the window, growing it up to the maximum and then shifting.
    let win :=
      if u1.window_currsize = u1.window_maxsize then u1.window + len
      else
        let max_increment := u1.window_maxsize - u1.window_currsize
        if len ≤ max_increment then u1.window else u1.window + (len - max_increment)
    let wsz :=
      if u1.window_currsize = u1.window_maxsize then u1.window_currsize
      else
        let max_increment := u1.window_maxsize - u1.window_currsize
        if len ≤ max_increment then u1.window_currsize + len else u1.window_maxsize
    some { u1 with data := data1, window := win, window_currsize := wsz,
                   processed_bytes := u1.processed_bytes + len }

/-- The token loop of `lz77_decompress` (lz77.c), memory backed.  Each
iteration reads the discriminator bit; for a phrase it reads the
`winoff_bits`-bit offset and then runs the peek/decode retry loop.  On a
memory stream a repeated peek returns exactly the same bits, so when
`tinyhuff_decode` reports "need more" (`c = 0`) the C retry loop spins
forever; the model returns `none` for that divergence.  A decoded
length 0 is the terminating token.  For a symbol, a short read of the
literal byte is the C `return -1`, also `none`. -/
def lz77_decompress_go : Nat → lz77_cstream_r → lz77_ustream_w →
    Option (lz77_cstream_r × lz77_ustream_w)
  | 0, _, _ => none
  | fuel + 1, cs, u =>
    let t := cstream_read_r cs LZ77_TYPE_BITS
    let state := t.2.1
    let cs1 := t.2.2
    if state ≠ 0 then
      -- Phrase (or terminating) token: offset, then length code.
      let o := cstream_read_r cs1 u.window_nbits
      let offset := o.2.1
      let cs2 := o.2.2
      -- Peek up to 16 bits; after `htons` the peeked bits sit in the top
      -- `p.1` bits of the 16-bit word, the rest are the buffer's zeros.
      let p := cstream_peek_r cs2 16
      let peeked := p.2 * 2 ^ (16 - p.1)
      let d := tinyhuff_decode u.length_encoder peeked p.1
      if d.1 = 0 then
        -- `tinyhuff_decode` wants more bits, but a repeated peek of this
        -- memory stream returns the same bits: the C retry loop spins
        -- forever.  `none` stands for that divergence.
        none
      else
        let cs3 := cstream_consume cs2 d.1
        let length := d.2
        if length = 0 then
          -- Terminating token: stop (both closes are no-ops here).
          some (cs3, u)
        else
          match ustream_save u offset length 0 with
          | none => none
          | some u' => lz77_decompress_go fuel cs3 u'
    else
      -- Symbol token: read the literal byte; a short read is an error.
      let n := cstream_read_r cs1 LZ77_NEXT_BITS
      if n.1 ≠ LZ77_NEXT_BITS then none
      else
        match ustream_save u 0 0 n.2.1 with
        | none => none
        | some u' => lz77_decompress_go fuel n.2.2 u'

/-- `lz77_decompress` (lz77.c) over a memory input and a growable memory
output: open the compressed stream (header validation), open the
output stream with its parameters, and run the token loop, returning
`processed_bytes` and the produced bytes.  Every loop iteration
consumes at least one bit, so the fuel is never exhausted. -/
def lz77_decompress_memory (bytes : List Nat) : Option (Nat × List Nat) :=
  match cstream_open_r (lz77_cstream_from_memory bytes) with
  | none => none
  | some cs =>
    let u := ustream_open_w lz77_ustream_to_memory_growable
      cs.window_maxsize cs.lookahead_maxsize
    match lz77_decompress_go (bytes.length * 8 + 1) cs u with
    | none => none
    | some r => some (r.2.processed_bytes, r.2.data)

/-! ### Helper lemmas -/

theorem number_of_bits_go_zero (fuel : Nat) : number_of_bits_go fuel 0 = 1 := by
  cases fuel <;> rfl

theorem number_of_bits_go_congr (v : Nat) : ∀ fuel, v ≤ fuel →
    number_of_bits_go fuel v = number_of_bits v := by
  induction v using Nat.strong_induction_on with
  | _ v ih =>
    intro fuel hfuel
    rcases v with _ | v
    · rw [number_of_bits_go_zero, number_of_bits, number_of_bits_go_zero]
    · rcases fuel with _ | fuel
      · omega
      · show (if v + 1 ≤ 1 then 1 else 1 + number_of_bits_go fuel ((v + 1) / 2))
            = number_of_bits_go (v + 1) (v + 1)
        rcases Nat.eq_zero_or_pos v with hv | hv
        · subst hv; rfl
        · have h1 : ¬ v + 1 ≤ 1 := by omega
          rw [if_neg h1]
          show _ = if v + 1 ≤ 1 then 1 else 1 + number_of_bits_go v ((v + 1) / 2)
          rw [if_neg h1]
          have hlt : (v + 1) / 2 < v + 1 := by omega
          rw [ih _ hlt fuel (by omega), ih _ hlt v (by omega)]


/-- The defining recurrence of `number_of_bits`. -/
theorem number_of_bits_eq (v : Nat) :
    number_of_bits v = if v ≤ 1 then 1 else 1 + number_of_bits (v / 2) := by
  match v with
  | 0 => rfl
  | 1 => rfl
  | v + 2 =>
    show number_of_bits_go (v + 2) (v + 2) = _
    have h1 : ¬ v + 2 ≤ 1 := by omega
    show (if v + 2 ≤ 1 then 1 else 1 + number_of_bits_go (v + 1) ((v + 2) / 2)) = _
    rw [if_neg h1, if_neg h1, number_of_bits_go_congr _ _ (by omega)]

theorem number_of_bits_pos (v : Nat) : 0 < number_of_bits v := by
  rw [number_of_bits_eq]
  split <;> omega

theorem lt_two_pow_number_of_bits (v : Nat) : v < 2 ^ number_of_bits v := by
  induction v using Nat.strong_induction_on with
  | _ v ih =>
    rw [number_of_bits_eq]
    split
    · simpa using by omega
    · have hrec := ih (v / 2) (by omega)
      rw [pow_add]
      omega

theorem two_pow_pred_le_number_of_bits (v : Nat) (h : 1 ≤ v) :
    2 ^ (number_of_bits v - 1) ≤ v := by
  induction v using Nat.strong_induction_on with
  | _ v ih =>
    rw [number_of_bits_eq]
    split
    · simpa using by omega
    · have hrec := ih (v / 2) (by omega) (by omega)
      have hpos := number_of_bits_pos (v / 2)
      have h1 : 1 + number_of_bits (v / 2) - 1 = (number_of_bits (v / 2) - 1) + 1 := by omega
      rw [h1, pow_succ]
      omega

/-- The C `number_of_bits` is `Nat.size` (the mathematical bit-width) on
positive arguments. -/
theorem number_of_bits_eq_size (v : Nat) (h : 1 ≤ v) : number_of_bits v = Nat.size v := by
  have h1 := lt_two_pow_number_of_bits v
  have h2 := two_pow_pred_le_number_of_bits v h
  have hs1 : Nat.size v ≤ number_of_bits v := Nat.size_le.mpr h1
  have hs2 : number_of_bits v - 1 < Nat.size v := Nat.lt_size.mpr h2
  have := number_of_bits_pos v
  omega

/-! ### Claim C5: length-code parameters installed by `ustream_open` -/

/-- C5, bridge: opening a memory-input UStream created for `(W, L)`
installs exactly `ustream_length_encoder W L` (the creator stored
`window_nbits = number_of_bits (W - 1)`). -/
theorem ustream_open_installs_length_encoder (s : List Nat) (W L : Nat) (u0 : lz77_ustream_c)
    (h : lz77_ustream_from_memory false s W L = some u0) :
    (ustream_open_c u0).length_encoder = ustream_length_encoder W L := by
  rw [lz77_ustream_from_memory] at h
  split_ifs at h <;> cases h <;>
    simp_all [ustream_open_c, ustream_length_encoder, ustream_min_match_length,
      ustream_window_nbits]

/-- C5 counterexample: for the valid parameters `W = 256`, `L = 8`
(so `min_value = 2` and `max_encoded = 8 = L`), the opened stream's
`diff_nbits` is `number_of_bits 0 = 1`, not the 0 the claim requires
for `L ≤ max_encoded`. -/
theorem c5_claim_counterexample :
    (lz77_ustream_from_memory false (List.replicate 16 0) 256 8).map
        (fun u => (ustream_open_c u).length_encoder) = some (ustream_length_encoder 256 8)
    ∧ (ustream_length_encoder 256 8).max_encoded_value = 8
    ∧ (ustream_length_encoder 256 8).diff_nbits ≠ 0 := by
  refine ⟨by decide, by decide, by decide⟩

/-- C5 as amended: for every valid `(W, L)` the opened length encoder
has `min_value = ⌊(1 + wbits + 2) / 9⌋ + 1` with `wbits` the bit-width
of `W - 1` (`Nat.size`), `max_encoded = min_value + 6`, and `diff_nbits`
equal to the bit-width of `L - max_encoded` when `L > max_encoded`, to
`1` (the bit-width the C code assigns to 0) when `L = max_encoded`, and
to `0` when `L < max_encoded`. -/
theorem c5_length_code_parameters (W L : Nat) (h4 : 4 ≤ W) (h16 : W ≤ 65535)
    (h2 : 2 ≤ L) (hLW : L ≤ W) :
    (ustream_length_encoder W L).min_value = (1 + Nat.size (W - 1) + 2) / 9 + 1
    ∧ (ustream_length_encoder W L).max_encoded_value
        = (ustream_length_encoder W L).min_value + 6
    ∧ ((ustream_length_encoder W L).max_encoded_value < L →
        (ustream_length_encoder W L).diff_nbits
          = Nat.size (L - (ustream_length_encoder W L).max_encoded_value))
    ∧ (L = (ustream_length_encoder W L).max_encoded_value →
        (ustream_length_encoder W L).diff_nbits = 1)
    ∧ (L < (ustream_length_encoder W L).max_encoded_value →
        (ustream_length_encoder W L).diff_nbits = 0) := by
  have hW1 : 1 ≤ W - 1 := by omega
  have he : ustream_length_encoder W L =
      ⟨ustream_min_match_length W, L, ustream_min_match_length W + 6,
        if ustream_min_match_length W + 6 ≤ L then
          number_of_bits (L - (ustream_min_match_length W + 6))
        else 0⟩ := rfl
  rw [he]
  refine ⟨?_, rfl, ?_, ?_, ?_⟩
  · show ustream_min_match_length W = (1 + Nat.size (W - 1) + 2) / 9 + 1
    rw [ustream_min_match_length, ustream_window_nbits, number_of_bits_eq_size _ hW1]
    rfl
  · intro hlt
    have hlt' : ustream_min_match_length W + 6 < L := hlt
    show (if ustream_min_match_length W + 6 ≤ L then
        number_of_bits (L - (ustream_min_match_length W + 6)) else 0)
      = Nat.size (L - (ustream_min_match_length W + 6))
    rw [if_pos (by omega : ustream_min_match_length W + 6 ≤ L),
      number_of_bits_eq_size _ (by omega)]
  · intro heq
    have heq' : L = ustream_min_match_length W + 6 := heq
    show (if ustream_min_match_length W + 6 ≤ L then
        number_of_bits (L - (ustream_min_match_length W + 6)) else 0) = 1
    rw [if_pos (by omega : ustream_min_match_length W + 6 ≤ L),
      show L - (ustream_min_match_length W + 6) = 0 from by omega]
    rfl
  · intro hlt
    have hlt' : L < ustream_min_match_length W + 6 := hlt
    show (if ustream_min_match_length W + 6 ≤ L then
        number_of_bits (L - (ustream_min_match_length W + 6)) else 0) = 0
    rw [if_neg (by omega : ¬ ustream_min_match_length W + 6 ≤ L)]

/-- C5 witness: the amended statement at `(W, L) = (512, 32)`, where
`min_value = 2`, `max_encoded = 8 < 32` and
`diff_nbits = Nat.size 24 = 5`. -/
theorem c5_length_code_parameters_witness :
    (ustream_length_encoder 512 32).min_value = (1 + Nat.size 511 + 2) / 9 + 1
    ∧ (ustream_length_encoder 512 32).max_encoded_value
        = (ustream_length_encoder 512 32).min_value + 6
    ∧ (ustream_length_encoder 512 32).diff_nbits
        = Nat.size (32 - (ustream_length_encoder 512 32).max_encoded_value) := by
  have h := c5_length_code_parameters 512 32 (by decide) (by decide) (by decide) (by decide)
  exact ⟨h.1, h.2.1, by
    have := h.2.2.1 (by decide)
    simpa using this⟩

/-! ### Claim C2: tinyhuff encode/decode round trip -/

/-- Encoding the terminator value 0 always yields the 6-bit code 000000. -/
theorem tinyhuff_encode_zero (m M d : Nat) (hm : 2 ≤ m) :
    tinyhuff_encode ⟨m, M, m + 6, d⟩ 0 = (6, 0) := by
  simp only [tinyhuff_encode, encoding_table]
  split_ifs with h1 <;> simp_all <;> omega

/-- Round trip for the terminator value 0. -/
theorem tinyhuff_roundtrip_zero (m M d : Nat) (hm : 2 ≤ m) :
    tinyhuff_decode ⟨m, M, m + 6, d⟩
        (left_align16 (tinyhuff_encode ⟨m, M, m + 6, d⟩ 0).2
          (tinyhuff_encode ⟨m, M, m + 6, d⟩ 0).1) 16
      = ((tinyhuff_encode ⟨m, M, m + 6, d⟩ 0).1, 0) := by
  rw [tinyhuff_encode_zero m M d hm]
  show tinyhuff_decode ⟨m, M, m + 6, d⟩ (left_align16 0 6) 16 = (6, 0)
  rw [show left_align16 0 6 = 0 from rfl]
  simp only [tinyhuff_decode, decoding_table, LZ77_TINYHUFF_MIN_CODE_BITS]
  norm_num

/-- Round trip for `min_value ≤ v < min_value + 6` (the six short
codes). -/
theorem tinyhuff_roundtrip_small (m M d v : Nat) (hm : 2 ≤ m)
    (hmv : m ≤ v) (hvM : v ≤ M) (hsmall : v < m + 6) :
    tinyhuff_decode ⟨m, M, m + 6, d⟩
        (left_align16 (tinyhuff_encode ⟨m, M, m + 6, d⟩ v).2
          (tinyhuff_encode ⟨m, M, m + 6, d⟩ v).1) 16
      = ((tinyhuff_encode ⟨m, M, m + 6, d⟩ v).1, v) := by
  have hcases : v = m ∨ v = m + 1 ∨ v = m + 2 ∨ v = m + 3 ∨ v = m + 4 ∨ v = m + 5 := by
    omega
  have henc : ∀ j : Nat, j ≤ 5 → v = m + j →
      tinyhuff_encode ⟨m, M, m + 6, d⟩ v = ((encoding_table (j + 1)).2, (encoding_table (j + 1)).1) := by
    intro j hj hveq
    subst hveq
    simp only [tinyhuff_encode]
    rw [if_neg (show ¬ m + j = 0 by omega),
        show 1 + (m + j) - m = j + 1 by omega,
        min_eq_left (by omega : j + 1 ≤ 7),
        if_neg (show ¬ (⟨m, M, m + 6, d⟩ : lz77_tinyhuff).max_encoded_value ≤ m + j by
          simp only; omega)]
  rcases hcases with hveq | hveq | hveq | hveq | hveq | hveq
  · rw [henc 0 (by omega) hveq, hveq]
    show tinyhuff_decode _ (left_align16 3 2) 16 = (2, m + 0)
    rw [show left_align16 3 2 = 49152 from rfl]
    simp only [tinyhuff_decode, decoding_table, LZ77_TINYHUFF_MIN_CODE_BITS]
    norm_num
  · rw [henc 1 (by omega) hveq, hveq]
    show tinyhuff_decode _ (left_align16 2 2) 16 = (2, m + 1)
    rw [show left_align16 2 2 = 32768 from rfl]
    simp only [tinyhuff_decode, decoding_table, LZ77_TINYHUFF_MIN_CODE_BITS]
    norm_num
    rw [if_neg (show ¬ 1 + m = m + 6 by omega)]
    simp only [Prod.mk.injEq]
    exact ⟨trivial, by omega⟩
  · rw [henc 2 (by omega) hveq, hveq]
    show tinyhuff_decode _ (left_align16 1 2) 16 = (2, m + 2)
    rw [show left_align16 1 2 = 16384 from rfl]
    simp only [tinyhuff_decode, decoding_table, LZ77_TINYHUFF_MIN_CODE_BITS]
    norm_num
    rw [if_neg (show ¬ 2 + m = m + 6 by omega)]
    simp only [Prod.mk.injEq]
    exact ⟨trivial, by omega⟩
  · rw [henc 3 (by omega) hveq, hveq]
    show tinyhuff_decode _ (left_align16 1 3) 16 = (3, m + 3)
    rw [show left_align16 1 3 = 8192 from rfl]
    simp only [tinyhuff_decode, decoding_table, LZ77_TINYHUFF_MIN_CODE_BITS]
    norm_num
    rw [if_neg (show ¬ 3 + m = m + 6 by omega)]
    simp only [Prod.mk.injEq]
    exact ⟨trivial, by omega⟩
  · rw [henc 4 (by omega) hveq, hveq]
    show tinyhuff_decode _ (left_align16 1 4) 16 = (4, m + 4)
    rw [show left_align16 1 4 = 4096 from rfl]
    simp only [tinyhuff_decode, decoding_table, LZ77_TINYHUFF_MIN_CODE_BITS]
    norm_num
    rw [if_neg (show ¬ 4 + m = m + 6 by omega)]
    simp only [Prod.mk.injEq]
    exact ⟨trivial, by omega⟩
  · rw [henc 5 (by omega) hveq, hveq]
    show tinyhuff_decode _ (left_align16 1 5) 16 = (5, m + 5)
    rw [show left_align16 1 5 = 2048 from rfl]
    simp only [tinyhuff_decode, decoding_table, LZ77_TINYHUFF_MIN_CODE_BITS]
    norm_num
    rw [if_neg (show ¬ 5 + m = m + 6 by omega)]
    simp only [Prod.mk.injEq]
    exact ⟨trivial, by omega⟩


/-- Round trip for `v ≥ min_value + 6` (prefix 000001 plus a
`diff_nbits`-wide suffix), for any `diff_nbits ≤ 10`. -/
theorem tinyhuff_roundtrip_large (m M d v : Nat) (hm : 2 ≤ m) (hd10 : d ≤ 10)
    (hd : d = number_of_bits (M - (m + 6)))
    (hmv : m + 6 ≤ v) (hvM : v ≤ M) :
    tinyhuff_decode ⟨m, M, m + 6, d⟩
        (left_align16 (tinyhuff_encode ⟨m, M, m + 6, d⟩ v).2
          (tinyhuff_encode ⟨m, M, m + 6, d⟩ v).1) 16
      = ((tinyhuff_encode ⟨m, M, m + 6, d⟩ v).1, v) := by
  have hd1 : 1 ≤ d := hd ▸ number_of_bits_pos _
  have hdifflt : v - (m + 6) < 2 ^ d := by
    rw [hd]
    exact lt_of_le_of_lt (by omega : v - (m + 6) ≤ M - (m + 6))
      (lt_two_pow_number_of_bits _)
  have hpowle : (2 : Nat) ^ d ≤ 2 ^ 10 := Nat.pow_le_pow_right (by norm_num) hd10
  have h1024 : (2 : Nat) ^ 10 = 1024 := by norm_num
  have henc : tinyhuff_encode ⟨m, M, m + 6, d⟩ v = (6 + d, 2 ^ d + (v - (m + 6))) := by
    simp only [tinyhuff_encode]
    rw [if_neg (show ¬ v = 0 by omega),
        min_eq_right (by omega : 7 ≤ 1 + v - m)]
    rw [if_pos (show (⟨m, M, m + 6, d⟩ : lz77_tinyhuff).max_encoded_value ≤ v from hmv)]
    show ((encoding_table 7).2 + d, ((encoding_table 7).1 * 2 ^ d + (v - (m + 6))) % 65536)
        = (6 + d, 2 ^ d + (v - (m + 6)))
    rw [show encoding_table 7 = (1, 6) from rfl]
    simp only [one_mul]
    rw [Nat.mod_eq_of_lt (by omega)]
  rw [henc]
  have hsmallmul : (v - (m + 6)) * 2 ^ (10 - d) < 2 ^ 10 := by
    have hpos : 0 < (2 : Nat) ^ (10 - d) := Nat.pos_pow_of_pos _ (by norm_num)
    calc (v - (m + 6)) * 2 ^ (10 - d) < 2 ^ d * 2 ^ (10 - d) :=
          Nat.mul_lt_mul_of_pos_right hdifflt hpos
    _ = 2 ^ 10 := by rw [← pow_add]; congr 1; omega
  have hla : left_align16 (2 ^ d + (v - (m + 6))) (6 + d)
      = 2 ^ 10 + (v - (m + 6)) * 2 ^ (10 - d) := by
    rw [left_align16, show 16 - (6 + d) = 10 - d by omega]
    rw [Nat.add_mul, ← pow_add, show d + (10 - d) = 10 by omega]
    exact Nat.mod_eq_of_lt (by omega)
  show tinyhuff_decode _ (left_align16 (2 ^ d + (v - (m + 6))) (6 + d)) 16 = (6 + d, v)
  rw [hla]
  have hdiv1 : (2 ^ 10 + (v - (m + 6)) * 2 ^ (10 - d)) / 2 ^ 10 = 1 := by
    rw [Nat.add_comm, Nat.add_div_right _ (by norm_num : 0 < 2 ^ 10),
      Nat.div_eq_of_lt hsmallmul]
  have hdiv2 : (2 ^ 10 + (v - (m + 6)) * 2 ^ (10 - d)) / 2 ^ (10 - d)
      = 2 ^ d + (v - (m + 6)) := by
    rw [Nat.add_mul_div_right _ _ (Nat.pos_pow_of_pos _ (by norm_num)),
      Nat.pow_div (by omega) (by norm_num), show 10 - (10 - d) = d by omega]
  rw [tinyhuff_decode]
  rw [if_neg (by decide : ¬ (16 : Nat) < LZ77_TINYHUFF_MIN_CODE_BITS)]
  simp only [hdiv1]
  rw [show (1 : Nat) % 64 = 1 from rfl, show decoding_table 1 = (6, 6) from rfl]
  simp only
  rw [if_neg (by decide : ¬ (16 : Nat) < 6)]
  rw [if_pos (by decide : (0 : Nat) < 1)]
  rw [if_pos (show 6 + m = (⟨m, M, m + 6, d⟩ : lz77_tinyhuff).max_encoded_value by
    simp only; omega)]
  rw [if_neg (show ¬ 16 < 6 + (⟨m, M, m + 6, d⟩ : lz77_tinyhuff).diff_nbits by
    simp only; omega)]
  show (6 + d, 6 + m + (2 ^ 10 + (v - (m + 6)) * 2 ^ (10 - d)) / 2 ^ (10 - d) % 2 ^ d)
      = (6 + d, v)
  rw [hdiv2, Nat.add_mod_left, Nat.mod_eq_of_lt hdifflt]
  simp only [Prod.mk.injEq]
  exact ⟨trivial, by omega⟩


/-- C2 counterexample: at the valid parameters `(W, L) = (65535, 65535)`
(`min_value = 3 ≥ 2`, `diff_nbits = 16`), encoding the encodable value
65535 produces a 22-bit code whose high bits are lost in the 16-bit
`*code` out-parameter; decoding 16 peeked bits then yields `(2, 3)` —
neither the value 65535 nor the encoder's 22-bit count — so the claimed
round trip fails. -/
theorem c2_claim_counterexample :
    2 ≤ (ustream_length_encoder 65535 65535).min_value
    ∧ tinyhuff_can_encode (ustream_length_encoder 65535 65535) 65535 = true
    ∧ (tinyhuff_encode (ustream_length_encoder 65535 65535) 65535).1 = 22
    ∧ tinyhuff_decode (ustream_length_encoder 65535 65535)
        (left_align16 (tinyhuff_encode (ustream_length_encoder 65535 65535) 65535).2
          (tinyhuff_encode (ustream_length_encoder 65535 65535) 65535).1) 16
      = (2, 3)
    ∧ tinyhuff_decode (ustream_length_encoder 65535 65535)
        (left_align16 (tinyhuff_encode (ustream_length_encoder 65535 65535) 65535).2
          (tinyhuff_encode (ustream_length_encoder 65535 65535) 65535).1) 16
      ≠ ((tinyhuff_encode (ustream_length_encoder 65535 65535) 65535).1, 65535) := by
  refine ⟨by decide, by decide, by decide, by decide, by decide⟩

/-- C2 as amended: the encode/decode round trip holds for every valid
`(W, L)` with `min_value ≥ 2` and every encodable `v`, **provided**
`diff_nbits ≤ 10` (equivalently, the longest code fits the decoder's
16-bit peek window; the counterexample above shows the claim fails
without this restriction). -/
theorem c2_tinyhuff_roundtrip (W L v : Nat) (h4 : 4 ≤ W) (h16 : W ≤ 65535)
    (h2 : 2 ≤ L) (hLW : L ≤ W)
    (hmin : 2 ≤ (ustream_length_encoder W L).min_value)
    (hd10 : (ustream_length_encoder W L).diff_nbits ≤ 10)
    (hv : tinyhuff_can_encode (ustream_length_encoder W L) v = true) :
    tinyhuff_decode (ustream_length_encoder W L)
        (left_align16 (tinyhuff_encode (ustream_length_encoder W L) v).2
          (tinyhuff_encode (ustream_length_encoder W L) v).1) 16
      = ((tinyhuff_encode (ustream_length_encoder W L) v).1, v) := by
  have he : ustream_length_encoder W L =
      ⟨ustream_min_match_length W, L, ustream_min_match_length W + 6,
        if ustream_min_match_length W + 6 ≤ L then
          number_of_bits (L - (ustream_min_match_length W + 6))
        else 0⟩ := rfl
  rw [he] at hmin hd10 hv ⊢
  have hm2 : 2 ≤ ustream_min_match_length W := hmin
  have hvors : v = 0 ∨ (ustream_min_match_length W ≤ v ∧ v ≤ L) := by
    simpa [tinyhuff_can_encode] using hv
  rcases hvors with rfl | ⟨hmv, hvM⟩
  · exact tinyhuff_roundtrip_zero _ _ _ hm2
  · rcases Nat.lt_or_ge v (ustream_min_match_length W + 6) with hsmall | hlarge
    · exact tinyhuff_roundtrip_small _ _ _ _ hm2 hmv hvM hsmall
    · have hif : (if ustream_min_match_length W + 6 ≤ L then
          number_of_bits (L - (ustream_min_match_length W + 6)) else 0)
          = number_of_bits (L - (ustream_min_match_length W + 6)) :=
        if_pos (by omega)
      rw [hif] at hd10 ⊢
      exact tinyhuff_roundtrip_large _ _ _ _ hm2 hd10 rfl hlarge hvM

/-- C2 witness: the amended round trip at `(W, L) = (512, 32)`, `v = 10`
(`min_value = 2`, `diff_nbits = 5`, an 11-bit code). -/
theorem c2_tinyhuff_roundtrip_witness :
    tinyhuff_decode (ustream_length_encoder 512 32)
        (left_align16 (tinyhuff_encode (ustream_length_encoder 512 32) 10).2
          (tinyhuff_encode (ustream_length_encoder 512 32) 10).1) 16
      = ((tinyhuff_encode (ustream_length_encoder 512 32) 10).1, 10) :=
  c2_tinyhuff_roundtrip 512 32 10 (by decide) (by decide) (by decide) (by decide)
    (by decide) (by decide) (by decide)

/-! ### Claim C9: UStream creation argument validation -/

/-- C9 counterexample: `lz77_ustream_from_memory` (and the descriptor
creator's checks) accept a look-ahead size larger than the window
(`W = 4`, `L = 100`) instead of failing with `EINVAL` as claimed: no
`lookahead > window` check exists in either creator. -/
theorem c9_claim_counterexample :
    (100 : Nat) > 4
    ∧ lz77_ustream_from_memory false [0] 4 100 ≠ none
    ∧ lz77_ustream_from_descriptor_checks 3 4 100 ≠ none := by
  refine ⟨by decide, by decide, by decide⟩

/-- C9 as amended: creation fails with `EINVAL` **iff** the data pointer
is NULL (memory case) / the descriptor is negative (descriptor case),
or the window size is below 4, or the look-ahead size is below 2.  The
claimed `lookahead > window` condition is not checked. -/
theorem c9_create_validation (dn : Bool) (s : List Nat) (fd : Int) (W L : Nat) :
    ((lz77_ustream_from_memory dn s W L = none) ↔ (dn = true ∨ W < 4 ∨ L < 2))
    ∧ ((lz77_ustream_from_descriptor_checks fd W L = none) ↔ (fd < 0 ∨ W < 4 ∨ L < 2)) := by
  constructor
  · rw [lz77_ustream_from_memory]
    split_ifs <;> simp_all [LZ77_MIN_WINDOW_SIZE, LZ77_MIN_LOOKAHEAD_SIZE] <;> omega
  · rw [lz77_ustream_from_descriptor_checks]
    split_ifs <;> simp_all [LZ77_MIN_WINDOW_SIZE, LZ77_MIN_LOOKAHEAD_SIZE] <;> omega

/-- C9 witness: `W = 3` is rejected, `W = 4` is accepted. -/
theorem c9_create_validation_witness :
    (lz77_ustream_from_memory false [0] 3 2 = none)
    ∧ ¬ (lz77_ustream_from_memory false [0] 4 2 = none) :=
  ⟨(c9_create_validation false [0] 0 3 2).1.mpr (Or.inr (Or.inl (by decide))),
   fun h => absurd ((c9_create_validation false [0] 0 4 2).1.mp h) (by decide)⟩

/-! ### Claim C7: reader-side header validation in `cstream_open` -/

/-- C7: opening a memory-backed compressed stream for reading fails iff
fewer than 12 bytes are available, the magic differs from `"LZ77"`, the
version differs from `0x10`, the decoded window size is below 4, the
decoded look-ahead size is below 2, or the look-ahead exceeds the
window; on success the stream's parameters are the decoded big-endian
header fields. -/
theorem c7_open_reader_validation (bytes : List Nat) :
    (cstream_open_r (lz77_cstream_from_memory bytes) = none
      ↔ (bytes.length < 12
          ∨ ¬ (bytes.getD 0 0 = 76 ∧ bytes.getD 1 0 = 90
                ∧ bytes.getD 2 0 = 55 ∧ bytes.getD 3 0 = 55)
          ∨ bytes.getD 4 0 ≠ 16
          ∨ bytes.getD 8 0 * 256 + bytes.getD 9 0 < 4
          ∨ bytes.getD 10 0 * 256 + bytes.getD 11 0 < 2
          ∨ bytes.getD 8 0 * 256 + bytes.getD 9 0
              < bytes.getD 10 0 * 256 + bytes.getD 11 0))
    ∧ (∀ cs', cstream_open_r (lz77_cstream_from_memory bytes) = some cs' →
        cs'.window_maxsize = bytes.getD 8 0 * 256 + bytes.getD 9 0
        ∧ cs'.lookahead_maxsize = bytes.getD 10 0 * 256 + bytes.getD 11 0) := by
  have hread : (cstream_read_r (lz77_cstream_from_memory bytes) 96).1
      = min 96 (bytes.length * 8) := by
    simp [cstream_read_r, cstream_peek_r, lz77_cstream_from_memory]
  constructor
  · rw [cstream_open_r]
    rw [hread]
    rcases Nat.lt_or_ge bytes.length 12 with hlen | hlen
    · rw [if_pos (by omega)]
      simp
      omega
    · rw [if_neg (by omega)]
      simp only [lz77_cstream_from_memory, LZ77PPM_VERSION, LZ77_MIN_WINDOW_SIZE,
        LZ77_MIN_LOOKAHEAD_SIZE]
      split_ifs <;> simp_all <;> omega
  · intro cs' h
    simp only [cstream_open_r] at h
    rw [hread] at h
    split_ifs at h <;> cases h
    constructor <;> rfl

/-- C7 witness: a valid 14-byte stream (`W = 4`, `L = 2`) opens with
exactly the decoded parameters. -/
theorem c7_open_reader_validation_witness :
    (cstream_open_r (lz77_cstream_from_memory
        [76, 90, 55, 55, 16, 0, 0, 0, 0, 4, 0, 2, 128, 0])).map
      (fun cs' => (cs'.window_maxsize, cs'.lookahead_maxsize)) = some (4, 2) := by
  rcases heq : cstream_open_r (lz77_cstream_from_memory
      [76, 90, 55, 55, 16, 0, 0, 0, 0, 4, 0, 2, 128, 0]) with _ | cs'
  · exact absurd ((c7_open_reader_validation _).1.mp heq) (by decide)
  · have h2 := (c7_open_reader_validation
      [76, 90, 55, 55, 16, 0, 0, 0, 0, 4, 0, 2, 128, 0]).2 cs' heq
    simp [Option.map, h2.1, h2.2]

/-! ### Claim C4: overlapping byte-by-byte copy in `ustream_save` -/

/-- `overlap_copy` appends exactly `n` bytes. -/
theorem overlap_copy_length (n : Nat) : ∀ (data : List Nat) (src : Nat),
    (overlap_copy data src n).length = data.length + n := by
  induction n with
  | zero => intro data src; rfl
  | succ n ih =>
    intro data src
    rw [overlap_copy, ih]
    simp
    omega

/-- `overlap_copy` never modifies already-present bytes. -/
theorem overlap_copy_getD_lt (n : Nat) : ∀ (data : List Nat) (src j : Nat),
    j < data.length → (overlap_copy data src n).getD j 0 = data.getD j 0 := by
  induction n with
  | zero => intro data src j hj; rfl
  | succ n ih =>
    intro data src j hj
    rw [overlap_copy, ih _ _ _ (by simp; omega)]
    exact List.getD_append _ _ _ _ hj

/-- The run-length-expansion equation of `overlap_copy`: each produced
byte equals the byte `n` positions earlier in the *final* buffer, i.e.
the byte at the source position as it stood after the previous
iterations had written theirs. -/
theorem overlap_copy_spec (n : Nat) : ∀ (data : List Nat) (src : Nat),
    src < data.length → ∀ i, i < n →
    (overlap_copy data src n).getD (data.length + i) 0
      = (overlap_copy data src n).getD (src + i) 0 := by
  induction n with
  | zero => intro data src hsrc i hi; omega
  | succ n ih =>
    intro data src hsrc i hi
    rcases Nat.eq_zero_or_pos i with rfl | hipos
    · rw [overlap_copy]
      rw [overlap_copy_getD_lt n _ _ _ (by simp)]
      rw [overlap_copy_getD_lt n _ _ _ (by simp; omega)]
      rw [Nat.add_zero, Nat.add_zero]
      rw [List.getD_append _ _ _ _ hsrc]
      rw [List.getD_append_right _ _ _ _ (le_refl _)]
      simp
    · obtain ⟨i', rfl⟩ : ∃ i', i = i' + 1 := ⟨i - 1, by omega⟩
      rw [overlap_copy]
      have h := ih (data ++ [data.getD src 0]) (src + 1) (by simp; omega) i' (by omega)
      rw [List.length_append] at h
      simp only [List.length_singleton] at h
      have e1 : data.length + 1 + i' = data.length + (i' + 1) := by omega
      have e2 : src + 1 + i' = src + (i' + 1) := by omega
      rw [e1, e2] at h
      exact h

/-- C4: appending an in-window phrase token with `offset + length >
window_currsize` appends exactly `length` bytes, leaves the existing
buffer untouched, and each appended byte `i` equals the byte at window
position `offset + i` of the buffer as it stands after bytes
`0 .. i-1` of this token were written (stated on the final buffer:
position `window + offset + i` precedes the byte being written and is
never modified afterwards).  The hypotheses are the invariants
`ustream_save` itself asserts: nonzero length, `offset` strictly inside
the window, and `window + window_currsize = end`. -/
theorem c4_overlap_append (u : lz77_ustream_w) (offset length next : Nat)
    (hlen : 1 ≤ length) (hoff : offset < u.window_currsize)
    (hinv : u.window + u.window_currsize = u.data.length)
    (hover : u.window_currsize < offset + length)
    (hre : u.can_realloc = true) :
    ∃ u', ustream_save u offset length next = some u'
      ∧ u'.data.length = u.data.length + length
      ∧ (∀ j, j < u.data.length → u'.data.getD j 0 = u.data.getD j 0)
      ∧ (∀ i, i < length →
          u'.data.getD (u.data.length + i) 0 = u'.data.getD (u.window + offset + i) 0) := by
  rw [ustream_save]
  have hc : (if length = 0 then 1 else length) = length := if_neg (by omega)
  rw [hc]
  have hsrc : u.window + offset < u.data.length := by omega
  have hnocpy : ¬ (u.window + offset + length ≤ u.data.length) := by omega
  by_cases hsz : u.size < u.data.length + length
  · rw [if_pos hsz, hre]
    simp only [Bool.true_eq_false, if_neg (by exact fun h => nomatch h : ¬ False)]
    refine ⟨_, rfl, ?_, ?_, ?_⟩
    · simp only [if_neg (show ¬ length = 0 by omega), if_neg hnocpy]
      exact overlap_copy_length length u.data (u.window + offset)
    · intro j hj
      simp only [if_neg (show ¬ length = 0 by omega), if_neg hnocpy]
      exact overlap_copy_getD_lt length u.data (u.window + offset) j hj
    · intro i hi
      simp only [if_neg (show ¬ length = 0 by omega), if_neg hnocpy]
      exact overlap_copy_spec length u.data (u.window + offset) hsrc i hi
  · rw [if_neg hsz]
    refine ⟨_, rfl, ?_, ?_, ?_⟩
    · simp only [if_neg (show ¬ length = 0 by omega), if_neg hnocpy]
      exact overlap_copy_length length u.data (u.window + offset)
    · intro j hj
      simp only [if_neg (show ¬ length = 0 by omega), if_neg hnocpy]
      exact overlap_copy_getD_lt length u.data (u.window + offset) j hj
    · intro i hi
      simp only [if_neg (show ¬ length = 0 by omega), if_neg hnocpy]
      exact overlap_copy_spec length u.data (u.window + offset) hsrc i hi

/-- A small decompression state for exercising `ustream_save`:
2 window bytes `[5, 7]`, window size 2 of maximum 4. -/
def c4_example_ustream : lz77_ustream_w :=
  { data := [5, 7], size := 1024, can_realloc := true, window := 0, window_maxsize := 4,
    window_currsize := 2, window_nbits := 2, lookahead_maxsize := 4,
    length_encoder := ⟨2, 4, 8, 1⟩, processed_bytes := 2 }

/-- C4 witness: the token `(offset 1, length 3)` on window `[5, 7]`
expands the last byte run-length style to `[5, 7, 7, 7, 7]`. -/
theorem c4_overlap_append_witness :
    ((ustream_save c4_example_ustream 1 3 0).map (fun u' => u'.data) = some [5, 7, 7, 7, 7])
    ∧ (∃ u', ustream_save c4_example_ustream 1 3 0 = some u'
        ∧ u'.data.length = c4_example_ustream.data.length + 3
        ∧ (∀ j, j < c4_example_ustream.data.length →
            u'.data.getD j 0 = c4_example_ustream.data.getD j 0)
        ∧ (∀ i, i < 3 → u'.data.getD (c4_example_ustream.data.length + i) 0
            = u'.data.getD (c4_example_ustream.window + 1 + i) 0)) :=
  ⟨by decide,
   c4_overlap_append c4_example_ustream 1 3 0 (by decide) (by decide) (by decide)
     (by decide) (by decide)⟩

/-! ### Claim C8: no rejection of malformed tokens in `ustream_save` -/

/-- A decompression state with `window_currsize = 2`. -/
def c8_example_ustream : lz77_ustream_w :=
  { data := [1, 2], size := 1024, can_realloc := false, window := 0, window_maxsize := 4,
    window_currsize := 2, window_nbits := 2, lookahead_maxsize := 2,
    length_encoder := ⟨2, 2, 8, 1⟩, processed_bytes := 2 }

/-- C8 counterexample: a phrase token with `offset = 5 ≥ window_currsize
= 2` and nonzero length is *not* rejected: `ustream_save` succeeds and
appends 2 bytes (of indeterminate value), so `lz77_decompress` does not
return `-1`.  The source guards these conditions only with `assert`. -/
theorem c8_claim_counterexample :
    (5 : Nat) ≥ c8_example_ustream.window_currsize
    ∧ (ustream_save c8_example_ustream 5 2 0).isSome = true
    ∧ (ustream_save c8_example_ustream 5 2 0).map (fun u' => u'.data.length) = some 4
    ∧ (ustream_save c8_example_ustream 5 2 0).map (fun u' => u'.processed_bytes) = some 4 := by
  refine ⟨by decide, by decide, by decide, by decide⟩

/-- C8 as amended: `ustream_save` performs no runtime validation of
`offset` or `length` (they are checked only by debug assertions): for
*every* state with a growable buffer and every nonzero length —
however malformed the token — it returns success and appends exactly
`length` bytes. -/
theorem c8_no_validation (u : lz77_ustream_w) (offset length next : Nat)
    (hlen : 1 ≤ length) (hre : u.can_realloc = true) :
    ∃ u', ustream_save u offset length next = some u'
      ∧ u'.data.length = u.data.length + length
      ∧ u'.processed_bytes = u.processed_bytes + length := by
  rw [ustream_save]
  have hc : (if length = 0 then 1 else length) = length := if_neg (by omega)
  rw [hc]
  have hdl : ∀ u1 : lz77_ustream_w, u1.data = u.data →
      (if length = 0 then u1.data ++ [next]
       else if u1.window + offset + length ≤ u.data.length then
         u1.data ++ ((u1.data.drop (u1.window + offset)).take length)
       else overlap_copy u1.data (u1.window + offset) length).length
      = u.data.length + length := by
    intro u1 hu1
    rw [if_neg (show ¬ length = 0 by omega)]
    by_cases hcpy : u1.window + offset + length ≤ u.data.length
    · rw [if_pos hcpy]
      simp [hu1]
      omega
    · rw [if_neg hcpy]
      rw [hu1, overlap_copy_length]
  by_cases hsz : u.size < u.data.length + length
  · rw [if_pos hsz, hre]
    simp only [Bool.true_eq_false, if_neg (by exact fun h => nomatch h : ¬ False)]
    exact ⟨_, rfl, hdl _ rfl, rfl⟩
  · rw [if_neg hsz]
    exact ⟨_, rfl, hdl _ rfl, rfl⟩

/-- C8 witness: the amended statement at a malformed token
(`offset = 5` beyond a 2-byte window, `length = 7` beyond
`lookahead_maxsize = 2`) on a growable output stream. -/
theorem c8_no_validation_witness :
    ∃ u', ustream_save
        { data := [1, 2], size := 0, can_realloc := true, window := 0, window_maxsize := 4,
          window_currsize := 2, window_nbits := 2, lookahead_maxsize := 2,
          length_encoder := ⟨2, 2, 8, 1⟩, processed_bytes := 2 } 5 7 0 = some u'
      ∧ u'.data.length = 2 + 7
      ∧ u'.processed_bytes = 2 + 7 :=
  c8_no_validation _ 5 7 0 (by decide) (by decide)


/-! ### Claim C10: `lz77_cstream_get_processed_bits` accounting -/

/-- A sequence of `cstream_write_bits` calls, each given as
`(reg, startbit, nbits)`. -/
def cstream_write_bits_fold (w : lz77_cstream_w) (calls : List (Nat × Nat × Nat)) :
    lz77_cstream_w :=
  calls.foldl (fun w c => (cstream_write_bits w c.1 c.2.1 c.2.2).2) w

/-- On a growable buffer `cstream_write` always succeeds, appends, and
adds exactly `8 * nbytes` to `processed_bits`, leaving the cache
untouched. -/
theorem cstream_write_growable (w : lz77_cstream_w) (bytes : List Nat)
    (h : w.can_realloc = true) :
    (cstream_write w bytes).2.can_realloc = true
    ∧ (cstream_write w bytes).2.processed_bits = w.processed_bits + bytes.length * 8
    ∧ (cstream_write w bytes).2.cached = w.cached
    ∧ (cstream_write w bytes).2.cached_nbits = w.cached_nbits := by
  rw [cstream_write]
  split_ifs with h1 h2
  · rw [h] at h2; cases h2
  · exact ⟨h, rfl, rfl, rfl⟩
  · exact ⟨h, rfl, rfl, rfl⟩

/-- One `cstream_write_bits` call on a growable stream adds exactly
`nbits` to `processed_bits + cached_nbits` (a flush moves whole cached
bytes into `processed_bits` and keeps the remainder cached).
`nbits ≤ 64` is the function's own assert
(`startbit + nbits <= 64`); `cached_nbits ≤ 71` is the running
invariant (at most 7 leftover bits plus one 64-bit write). -/
theorem cstream_write_bits_growable (w : lz77_cstream_w) (reg startbit nbits : Nat)
    (h : w.can_realloc = true) (hn : nbits ≤ 64) (hc : w.cached_nbits ≤ 71) :
    (cstream_write_bits w reg startbit nbits).2.can_realloc = true
    ∧ (cstream_write_bits w reg startbit nbits).2.cached_nbits ≤ 71
    ∧ lz77_cstream_get_processed_bits (cstream_write_bits w reg startbit nbits).2
      = lz77_cstream_get_processed_bits w + nbits := by
  rw [cstream_write_bits]
  split_ifs with h1
  · have hw := cstream_write_growable w ((be64_bytes w.cached).take (w.cached_nbits / 8)) h
    refine ⟨hw.1, ?_, ?_⟩
    · show (cstream_write w _).2.cached_nbits % 8 + nbits ≤ 71
      omega
    · simp only [lz77_cstream_get_processed_bits]
      simp only [hw.2.1, hw.2.2.2]
      simp only [List.length_take, be64_bytes]
      simp only [List.length_cons, List.length_nil]
      omega
  · exact ⟨h, by simp only; omega, by simp only [lz77_cstream_get_processed_bits]; omega⟩

/-- Folding any sequence of `cstream_write_bits` calls over a growable
stream adds exactly the sum of the `nbits` arguments to
`processed_bits + cached_nbits`. -/
theorem cstream_write_bits_fold_processed (calls : List (Nat × Nat × Nat)) :
    ∀ w : lz77_cstream_w, w.can_realloc = true → w.cached_nbits ≤ 71 →
    (∀ c ∈ calls, c.2.2 ≤ 64) →
    (cstream_write_bits_fold w calls).can_realloc = true
    ∧ lz77_cstream_get_processed_bits (cstream_write_bits_fold w calls)
      = lz77_cstream_get_processed_bits w + (calls.map (fun c => c.2.2)).sum := by
  induction calls with
  | nil => intro w h _ _; exact ⟨h, by simp [cstream_write_bits_fold]⟩
  | cons c rest ih =>
    intro w h hc hcalls
    have hstep := cstream_write_bits_growable w c.1 c.2.1 c.2.2 h
      (hcalls c (List.mem_cons_self c rest)) hc
    have hrec := ih (cstream_write_bits w c.1 c.2.1 c.2.2).2 hstep.1 hstep.2.1
      (fun x hx => hcalls x (List.mem_cons_of_mem c hx))
    refine ⟨hrec.1, ?_⟩
    show lz77_cstream_get_processed_bits
        (cstream_write_bits_fold (cstream_write_bits w c.1 c.2.1 c.2.2).2 rest) = _
    rw [hrec.2, hstep.2.2]
    simp [List.sum_cons]
    omega

/-- C10 as amended: on a *growable* writer (flushes always succeed),
after opening and any sequence of `cstream_write_bits` calls with the
asserted `nbits ≤ 64`, `lz77_cstream_get_processed_bits` equals the 96
header bits plus the sum of all `nbits` arguments (cached bits
included), and is monotone along the sequence.  The growable condition
is necessary: the counterexample below shows a fixed-size writer whose
failed flush breaks the equation. -/
theorem c10_processed_bits (W L : Nat) (calls : List (Nat × Nat × Nat))
    (w1 : lz77_cstream_w)
    (hopen : cstream_open_w (lz77_cstream_to_memory_growable W L) = (true, w1))
    (hcalls : ∀ c ∈ calls, c.2.2 ≤ 64) :
    lz77_cstream_get_processed_bits (cstream_write_bits_fold w1 calls)
      = 96 + (calls.map (fun c => c.2.2)).sum
    ∧ (∀ pre post, calls = pre ++ post →
        lz77_cstream_get_processed_bits (cstream_write_bits_fold w1 pre)
          ≤ lz77_cstream_get_processed_bits (cstream_write_bits_fold w1 calls)) := by
  have hw1 : w1 = (cstream_open_w (lz77_cstream_to_memory_growable W L)).2 := by
    rw [hopen]
  have hre : w1.can_realloc = true := by
    rw [hw1]
    exact (cstream_write_growable _ _ rfl).1
  have hget : lz77_cstream_get_processed_bits w1 = 96 := by
    rw [hw1]
    have h0 := cstream_write_growable (lz77_cstream_to_memory_growable W L)
      (cstream_header_bytes (lz77_cstream_to_memory_growable W L).window_maxsize
        (lz77_cstream_to_memory_growable W L).lookahead_maxsize) rfl
    simp only [lz77_cstream_get_processed_bits, cstream_open_w]
    rw [h0.2.1, h0.2.2.2]
    simp [lz77_cstream_to_memory_growable, cstream_header_bytes]
  have hcach : w1.cached_nbits ≤ 71 := by
    rw [hw1]
    have h0 := cstream_write_growable (lz77_cstream_to_memory_growable W L)
      (cstream_header_bytes (lz77_cstream_to_memory_growable W L).window_maxsize
        (lz77_cstream_to_memory_growable W L).lookahead_maxsize) rfl
    show (cstream_write _ _).2.cached_nbits ≤ 71
    rw [h0.2.2.2]
    simp [lz77_cstream_to_memory_growable]
  have hmain := cstream_write_bits_fold_processed calls w1 hre hcach hcalls
  refine ⟨by rw [hmain.2, hget], ?_⟩
  intro pre post hsplit
  have hpre := cstream_write_bits_fold_processed pre w1 hre hcach
    (fun x hx => hcalls x (hsplit ▸ List.mem_append_left post hx))
  rw [hmain.2, hpre.2, hget, hsplit]
  simp [List.sum_append]

/-- C10 witness: two writes of 4 and 9 bits after the header give
`96 + 13` processed bits. -/
theorem c10_processed_bits_witness :
    lz77_cstream_get_processed_bits
      (cstream_write_bits_fold
        { data := [76, 90, 55, 55, 16, 0, 0, 0, 0, 4, 0, 2], size := 1024, end_bits := 96,
          cached := 0, cached_nbits := 0, can_realloc := true, window_maxsize := 4,
          lookahead_maxsize := 2, processed_bits := 96 }
        [(0, 60, 4), (81, 55, 9)])
      = 96 + (4 + (9 + 0)) :=
  (c10_processed_bits 4 2 [(0, 60, 4), (81, 55, 9)] _ (by decide) (by decide)).1

/-- C10 counterexample: on a fixed 12-byte buffer (`can_realloc = 0`)
the header write fills the buffer; two 33-bit `cstream_write_bits`
calls then force a flush that fails with `ENOMEM` — the C code still
rewrites the cache and returns — after which
`lz77_cstream_get_processed_bits` reports 130, not the
`96 + 66 = 162` the claim demands. -/
theorem c10_claim_counterexample :
    (cstream_open_w
        { data := [], size := 12, end_bits := 0, cached := 0, cached_nbits := 0,
          can_realloc := false, window_maxsize := 4, lookahead_maxsize := 2,
          processed_bits := 0 }).1 = true
    ∧ lz77_cstream_get_processed_bits
        (cstream_write_bits
          ((cstream_write_bits
            (cstream_open_w
              { data := [], size := 12, end_bits := 0, cached := 0, cached_nbits := 0,
                can_realloc := false, window_maxsize := 4, lookahead_maxsize := 2,
                processed_bits := 0 }).2 0 31 33).2) 0 31 33).2 = 130
    ∧ (130 : Nat) ≠ 96 + (33 + 33) := by
  refine ⟨by decide, by decide, by decide⟩

/-! ### Claim C6: the 12-byte header of every compressed output -/

/-- `cstream_write` only ever appends to the output buffer. -/
theorem cstream_write_data (w : lz77_cstream_w) (bytes : List Nat) :
    ∃ t, (cstream_write w bytes).2.data = w.data ++ t := by
  rw [cstream_write]
  split_ifs
  · exact ⟨[], (List.append_nil _).symm⟩
  · exact ⟨bytes, rfl⟩
  · exact ⟨bytes, rfl⟩

/-- `cstream_write_bits` only ever appends to the output buffer. -/
theorem cstream_write_bits_data (w : lz77_cstream_w) (reg startbit nbits : Nat) :
    ∃ t, (cstream_write_bits w reg startbit nbits).2.data = w.data ++ t := by
  rw [cstream_write_bits]
  split_ifs
  · exact cstream_write_data w _
  · exact ⟨[], (List.append_nil _).symm⟩

/-- `cstream_close` only ever appends to the output buffer. -/
theorem cstream_close_w_data (w : lz77_cstream_w) :
    ∃ t, (cstream_close_w w).data = w.data ++ t := by
  rw [cstream_close_w]
  split_ifs
  · exact cstream_write_data w _
  · exact ⟨[], (List.append_nil _).symm⟩

/-- The compression token loop only ever appends to the output buffer:
whatever bytes the stream holds when the loop starts are a prefix of
the final output. -/
theorem lz77_compress_go_data (wb : Nat) (e : lz77_tinyhuff) :
    ∀ (fuel : Nat) (u : lz77_ustream_c) (cs : lz77_cstream_w) (n : Nat) (out : List Nat),
    lz77_compress_go wb e fuel u cs = some (n, out) →
    ∃ t, out = cs.data ++ t := by
  intro fuel
  induction fuel with
  | zero => intro u cs n out h; cases h
  | succ fuel ih =>
    intro u cs n out h
    rw [lz77_compress_go] at h
    split at h
    · dsimp only at h
      split at h
      · cases h
        obtain ⟨t1, h1⟩ := cstream_write_bits_data cs _ _ _
        obtain ⟨t2, h2⟩ := cstream_close_w_data _
        exact ⟨t1 ++ t2, by rw [h2, h1, List.append_assoc]⟩
      · cases h
    · dsimp only at h
      split at h <;> split at h <;>
        first
        | cases h
        | (obtain ⟨t1, h1⟩ := cstream_write_bits_data cs _ _ _
           obtain ⟨t2, h2⟩ := ih _ _ _ _ h
           exact ⟨t1 ++ t2, by rw [h2, h1, List.append_assoc]⟩)

/-- `lz77_ustream_from_memory` stores the requested window and
look-ahead sizes unchanged. -/
theorem from_memory_maxsizes (s : List Nat) (W L : Nat) (u0 : lz77_ustream_c)
    (h : lz77_ustream_from_memory false s W L = some u0) :
    u0.window_maxsize = W ∧ u0.lookahead_maxsize = L := by
  rw [lz77_ustream_from_memory] at h
  split_ifs at h <;> cases h <;> exact ⟨rfl, rfl⟩

/-- Opening a fresh growable writer emits exactly the 12 header
bytes. -/
theorem cstream_open_growable_data (W L : Nat) :
    (cstream_open_w (lz77_cstream_to_memory_growable W L)).2.data =
      cstream_header_bytes W L := by
  simp [cstream_open_w, cstream_write, lz77_cstream_to_memory_growable, cstream_header_bytes]

/-- C6: every successful compress output begins with the 12-byte
header "LZ77", version `0x10`, three zero bytes, then `W` and `L` as
big-endian 16-bit integers (`cstream_open` writes the header first and
every later write appends). -/
theorem c6_compress_header (s : List Nat) (W L n : Nat) (out : List Nat)
    (hW : W < 65536) (hL : L < 65536)
    (h : lz77_compress_memory s W L = some (n, out)) :
    out.take 12 = [76, 90, 55, 55, 16, 0, 0, 0, W / 256, W % 256, L / 256, L % 256] := by
  rw [lz77_compress_memory] at h
  split at h
  · cases h
  next u0 heq =>
    dsimp only at h
    split at h
    · obtain ⟨t, ht⟩ := lz77_compress_go_data _ _ _ _ _ _ _ h
      obtain ⟨hw, hl⟩ := from_memory_maxsizes s W L u0 heq
      have hw' : (ustream_open_c u0).window_maxsize = W := hw
      have hl' : (ustream_open_c u0).lookahead_maxsize = L := hl
      rw [hw', hl', cstream_open_growable_data] at ht
      rw [ht, List.take_left' (by rfl), cstream_header_bytes]
      have e1 : W / 256 % 256 = W / 256 := Nat.mod_eq_of_lt (by omega)
      have e2 : L / 256 % 256 = L / 256 := Nat.mod_eq_of_lt (by omega)
      rw [e1, e2]
      rfl
    · cases h

/-- C6 witness: the empty input at `(W, L) = (4, 2)` compresses to 14
bytes whose first 12 are the header. -/
theorem c6_compress_header_witness :
    4 < 65536 ∧ 2 < 65536 ∧
    lz77_compress_memory [] 4 2 =
      some (14, [76, 90, 55, 55, 16, 0, 0, 0, 0, 4, 0, 2, 128, 0]) ∧
    ([76, 90, 55, 55, 16, 0, 0, 0, 0, 4, 0, 2, 128, 0] : List Nat).take 12 =
      [76, 90, 55, 55, 16, 0, 0, 0, 4 / 256, 4 % 256, 2 / 256, 2 % 256] :=
  ⟨by decide, by decide, by decide,
    c6_compress_header [] 4 2 14 _ (by decide) (by decide) (by decide)⟩

/-! ### Claim C1: round-trip `decompress (compress s) = s` -/

/-- Ten repeated bytes: a short input on which the round trip already
fails for large window parameters. -/
def c1_input : List Nat := List.replicate 10 97

/-- C1 is false in the code: at `(W, L) = (1032, 1032)` the phrase
token for the 9-byte match carries a 17-bit length code
(`1 + winoff_bits(11) + min_code_bits(2) + diff_nbits(3)` places the
code past the 16 bits `cstream_peek` can supply), so the decoder's
`tinyhuff_decode` retry loop never sees enough bits and spins forever;
the model returns `none` where the C `lz77_decompress` hangs.
Compression itself succeeds and produces these 19 bytes. -/
theorem c1_roundtrip_diverges :
    lz77_compress_memory c1_input 1032 1032 =
      some (19, [76, 90, 55, 55, 16, 0, 0, 0, 4, 8, 4, 8, 48, 192, 0, 32, 6, 0, 0])
    ∧ lz77_decompress_memory
        [76, 90, 55, 55, 16, 0, 0, 0, 4, 8, 4, 8, 48, 192, 0, 32, 6, 0, 0] = none := by
  refine ⟨by decide, by decide⟩

/-! ### Claim C3: one tree slot per in-window position; duplicate merge -/

/-- How many times slot `slot` occurs in the subtree rooted at `node`
(a plain traversal of the arena's links; the fuel bounds the depth). -/
def tree_count_slot (tree : lz77_tree_arena) (slot : Nat) : Nat → Nat → Nat
  | 0, _ => 0
  | fuel + 1, node =>
    if node = UNUSED then 0
    else
      (if node = slot then 1 else 0)
        + tree_count_slot tree slot fuel ((tree_get tree node).smaller)
        + tree_count_slot tree slot fuel ((tree_get tree node).larger)

/-- The compression stream for the input `"AAAA"` with `W = 4`,
`L = 2` (the creator succeeds, see the counterexample below). -/
def c3_u0 : lz77_ustream_c :=
  (lz77_ustream_from_memory false [65, 65, 65, 65] 4 2).getD
    ⟨[], 0, 0, 0, 0, 0, 0, 0, [], ⟨0, 0, 0, 0⟩, 0⟩

/-- The stream after the first completed `ustream_find_and_advance`
step (a 1-byte symbol token). -/
def c3_u1 : lz77_ustream_c :=
  (ustream_find_and_advance (ustream_open_c c3_u0)).2.2.2.2

/-- The stream after the second completed step (a 2-byte phrase
token). -/
def c3_u2 : lz77_ustream_c :=
  (ustream_find_and_advance c3_u1).2.2.2.2

/-- C3 counterexample: after the second completed
`ustream_find_and_advance` step on `"AAAA"` (`W = 4`, `L = 2`) the
window holds 3 bytes, so position 0 is at distance 3 ∈ [1, wsize] from
the look-ahead start (slot 3), yet it occurs 0 times — not exactly
once — in the search tree: inserting slot 1 fully matched slot 0's key
and merged it away, and inserting slot 2 merged away slot 1. -/
theorem c3_claim_counterexample :
    (lz77_ustream_from_memory false [65, 65, 65, 65] 4 2).isSome = true
    ∧ (ustream_find_and_advance (ustream_open_c c3_u0)).1 = 1
    ∧ (ustream_find_and_advance c3_u1).1 = 2
    ∧ c3_u2.window = 0 ∧ c3_u2.window_currsize = 3
    ∧ c3_u2.lookahead % c3_u2.window_maxsize = 3
    ∧ (c3_u2.lookahead + c3_u2.window_maxsize - 3) % c3_u2.window_maxsize = 0
    ∧ 1 ≤ 3 ∧ 3 ≤ c3_u2.window_currsize
    ∧ tree_count_slot c3_u2.tree 0 8 ((tree_get c3_u2.tree c3_u2.window_maxsize).larger) = 0
    := by decide

/-- The search walk of `lz77_find_and_add` (tree.c), as an inductive
relation mirroring `find_and_add_go`'s three recursion paths: `found`
stops at a node whose key fully matches the look-ahead (with a strict
improvement, as in the code), `deeper` descends into a non-`UNUSED`
child, and `reinsert` takes the re-insertion path (child slot free,
`test ≠ curr`, but the child re-read after deleting `curr` is
occupied).  The first `Nat` index is the number of recursion steps;
the result component records the arena and the node at the moment the
full match is found. -/
inductive FullMatchWalk (cdata : List Nat) (W lsize la win begin_ curr : Nat) :
    Nat → lz77_tree_arena → Nat → Nat → Nat → lz77_tree_arena × Nat → Prop
  | found (tree : lz77_tree_arena) (test longest offset : Nat)
      (hlt : longest < (match_compare cdata la (win + slot_window_offset W begin_ test) lsize).1)
      (hfull : (match_compare cdata la (win + slot_window_offset W begin_ test) lsize).1 = lsize) :
      FullMatchWalk cdata W lsize la win begin_ curr 0 tree test longest offset (tree, test)
  | deeper (n : Nat) (tree : lz77_tree_arena) (test longest offset : Nat)
      (res : lz77_tree_arena × Nat)
      (hnot : ¬(longest < (match_compare cdata la (win + slot_window_offset W begin_ test) lsize).1
        ∧ (match_compare cdata la (win + slot_window_offset W begin_ test) lsize).1 = lsize))
      (hchild : (if 0 < (match_compare cdata la (win + slot_window_offset W begin_ test) lsize).2
          then (tree_get tree test).larger else (tree_get tree test).smaller) ≠ UNUSED)
      (hrec : FullMatchWalk cdata W lsize la win begin_ curr n tree
        (if 0 < (match_compare cdata la (win + slot_window_offset W begin_ test) lsize).2
          then (tree_get tree test).larger else (tree_get tree test).smaller)
        (if longest < (match_compare cdata la (win + slot_window_offset W begin_ test) lsize).1
          then (match_compare cdata la (win + slot_window_offset W begin_ test) lsize).1 else longest)
        (if longest < (match_compare cdata la (win + slot_window_offset W begin_ test) lsize).1
          then slot_window_offset W begin_ test else offset) res) :
      FullMatchWalk cdata W lsize la win begin_ curr (n + 1) tree test longest offset res
  | reinsert (n : Nat) (tree : lz77_tree_arena) (test longest offset : Nat)
      (res : lz77_tree_arena × Nat)
      (hnot : ¬(longest < (match_compare cdata la (win + slot_window_offset W begin_ test) lsize).1
        ∧ (match_compare cdata la (win + slot_window_offset W begin_ test) lsize).1 = lsize))
      (hchild : (if 0 < (match_compare cdata la (win + slot_window_offset W begin_ test) lsize).2
          then (tree_get tree test).larger else (tree_get tree test).smaller) = UNUSED)
      (htc : test ≠ curr)
      (hchild1 : (if 0 < (match_compare cdata la (win + slot_window_offset W begin_ test) lsize).2
          then (tree_get (if (tree_get tree curr).parent ≠ UNUSED
              then lz77_tree_delete_node tree curr else tree) test).larger
          else (tree_get (if (tree_get tree curr).parent ≠ UNUSED
              then lz77_tree_delete_node tree curr else tree) test).smaller) ≠ UNUSED)
      (hrec : FullMatchWalk cdata W lsize la win begin_ curr n
        (if (tree_get tree curr).parent ≠ UNUSED then lz77_tree_delete_node tree curr else tree)
        (if 0 < (match_compare cdata la (win + slot_window_offset W begin_ test) lsize).2
          then (tree_get (if (tree_get tree curr).parent ≠ UNUSED
              then lz77_tree_delete_node tree curr else tree) test).larger
          else (tree_get (if (tree_get tree curr).parent ≠ UNUSED
              then lz77_tree_delete_node tree curr else tree) test).smaller)
        (if longest < (match_compare cdata la (win + slot_window_offset W begin_ test) lsize).1
          then (match_compare cdata la (win + slot_window_offset W begin_ test) lsize).1 else longest)
        (if longest < (match_compare cdata la (win + slot_window_offset W begin_ test) lsize).1
          then slot_window_offset W begin_ test else offset) res) :
      FullMatchWalk cdata W lsize la win begin_ curr (n + 1) tree test longest offset res

/-- `lz77_tree_replace_node` detaches the replaced slot: its `parent`
link is cleared last. -/
theorem tree_get_replace_old (tree : lz77_tree_arena) (old new_ : Nat) :
    (tree_get (lz77_tree_replace_node tree old new_) old).parent = UNUSED := by
  rw [lz77_tree_replace_node]
  dsimp only
  rw [tree_set, tree_get]
  simp

/-- C3 as amended (second half of the claim, which is the true part):
whenever the `lz77_find_and_add` walk reaches a node `res.2` whose
full look-ahead key matches the string being inserted, the old node is
replaced in place by the new slot `curr` — the arena becomes
`lz77_tree_replace_node (lz77_tree_delete_node res.1 curr) res.2 curr`,
the reported match length is the whole look-ahead, and the old slot
ends up detached — rather than `curr` being stored as a duplicate.
(The first half of the claim, that every in-window position occurs
exactly once, is refuted by the counterexample above: the merged-away
position occurs zero times.) -/
theorem c3_duplicate_merge (cdata : List Nat) (W lsize la win begin_ curr : Nat)
    (n : Nat) (tree : lz77_tree_arena) (test longest offset : Nat)
    (res : lz77_tree_arena × Nat)
    (hwalk : FullMatchWalk cdata W lsize la win begin_ curr n tree test longest offset res)
    (hne : res.2 ≠ curr) :
    ∀ fuel, n < fuel →
      find_and_add_go cdata W lsize la win begin_ curr fuel tree test longest offset =
        (lz77_tree_replace_node (lz77_tree_delete_node res.1 curr) res.2 curr, lsize,
          slot_window_offset W begin_ res.2)
      ∧ (tree_get (find_and_add_go cdata W lsize la win begin_ curr fuel tree test
          longest offset).1 res.2).parent = UNUSED := by
  revert hne
  induction hwalk with
  | found tree test longest offset hlt hfull =>
    intro hne fuel hfuel
    cases fuel with
    | zero => omega
    | succ f =>
      rw [find_and_add_go]
      dsimp only
      rw [if_pos ⟨hlt, hfull⟩, if_pos hne, if_pos hlt, if_pos hlt, hfull]
      refine ⟨rfl, ?_⟩
      exact tree_get_replace_old _ _ _
  | deeper n tree test longest offset res hnot hchild hrec ih =>
    intro hne fuel hfuel
    cases fuel with
    | zero => omega
    | succ f =>
      rw [find_and_add_go]
      dsimp only
      rw [if_neg hnot, if_neg hchild]
      exact ih hne f (by omega)
  | reinsert n tree test longest offset res hnot hchild htc hchild1 hrec ih =>
    intro hne fuel hfuel
    cases fuel with
    | zero => omega
    | succ f =>
      rw [find_and_add_go]
      dsimp only
      rw [if_neg hnot, if_pos hchild, if_neg htc, if_neg hchild1]
      exact ih hne f (by omega)

/-- C3 witness: the second step on `"AAAA"` finds a full 2-byte match
at the root (slot 0) while inserting slot 1, and the arena update is
exactly the delete-then-replace merge. -/
theorem c3_duplicate_merge_witness :
    find_and_add_go [65, 65, 65, 65] 4 2 1 0 0 1 5 c3_u1.tree 0 0 0 =
      (lz77_tree_replace_node (lz77_tree_delete_node c3_u1.tree 1) 0 1, 2,
        slot_window_offset 4 0 0)
    ∧ (tree_get (find_and_add_go [65, 65, 65, 65] 4 2 1 0 0 1 5 c3_u1.tree 0 0 0).1 0).parent
        = UNUSED :=
  c3_duplicate_merge [65, 65, 65, 65] 4 2 1 0 0 1 0 c3_u1.tree 0 0 0 (c3_u1.tree, 0)
    (FullMatchWalk.found c3_u1.tree 0 0 0 (by decide) (by decide)) (by decide) 5 (by decide)

end Lz77
